import Mathlib

/-!
Verification development for a three-stage document-to-process-model
pipeline (file `FPD_Creator.py`). Python strings are embedded as
`List Char`; every operation below is translated from the source file.
The generative-model backend is embedded as an oracle indexed by the
call number, returning either a reply text or a remote-call failure.
-/

/-- Characters stripped by the Python `str.strip()` default and matched by
the regex class `\s` (ASCII range). -/
def pyIsSpace (c : Char) : Bool :=
  c = ' ' || c = '\t' || c = '\n' || c = '\r' || c = '\x0b' || c = '\x0c'

/-- Removal of trailing characters satisfying `p`. -/
def dropTrailing (p : Char → Bool) (l : List Char) : List Char :=
  (l.reverse.dropWhile p).reverse

/-- Embedding of Python `str.strip()` with no argument: removes all leading
and trailing whitespace. -/
def pyStrip (l : List Char) : List Char :=
  dropTrailing pyIsSpace (l.dropWhile pyIsSpace)

/-- Embedding of Python `str.strip("|")`: removes all leading and trailing
pipe characters (source line 59 and 62). -/
def pyStripPipes (l : List Char) : List Char :=
  dropTrailing (fun c => c = '|') (l.dropWhile (fun c => c = '|'))

/-- Line-break characters recognised by Python `str.splitlines` (ASCII and
Latin-1 range plus the two Unicode separators). -/
def isLineBreak (c : Char) : Bool :=
  c = '\n' || c = '\r' || c = '\x0b' || c = '\x0c' ||
  c = '\x1c' || c = '\x1d' || c = '\x1e' || c = '\x85' ||
  c = '\u2028' || c = '\u2029'

/-- Worker for `pySplitlines`: accumulates the current line (reversed) and
cuts at every line break. The flag records that the previous character was
a carriage return, so that a directly following line feed is consumed
without emitting a second line. A final empty segment is not emitted,
matching Python. -/
def splitlinesGo : List Char → List Char → Bool → List (List Char)
  | [], acc, _ => if acc.isEmpty then [] else [acc.reverse]
  | c :: rest, acc, afterCR =>
    if afterCR && c = '\n' then splitlinesGo rest acc false
    else if c = '\r' then acc.reverse :: splitlinesGo rest [] true
    else if isLineBreak c then acc.reverse :: splitlinesGo rest [] false
    else splitlinesGo rest (c :: acc) false

/-- Embedding of Python `str.splitlines()`. -/
def pySplitlines (l : List Char) : List (List Char) :=
  splitlinesGo l [] false

/-- Worker for `splitPipe`. -/
def splitPipeGo : List Char → List Char → List (List Char)
  | [], acc => [acc.reverse]
  | c :: rest, acc =>
    if c = '|' then acc.reverse :: splitPipeGo rest []
    else splitPipeGo rest (c :: acc)

/-- Embedding of Python `str.split("|")`: always returns at least one
segment. -/
def splitPipe (l : List Char) : List (List Char) :=
  splitPipeGo l []

/-- A parsed record: a Python dict from column name to cell value, kept as
an association list in key-insertion order. -/
abbrev Record := List (List Char × List Char)

/-- Embedding of a Python dict insertion `d[k] = v`: an existing key keeps
its position and gets the new value, a new key is appended. -/
def dictInsert (k v : List Char) : Record → Record
  | [] => [(k, v)]
  | (k₀, v₀) :: rest =>
    if k₀ = k then (k, v) :: rest else (k₀, v₀) :: dictInsert k v rest

/-- Embedding of Python `dict(zip(ks, vs))`. -/
def dictZip (ks vs : List (List Char)) : Record :=
  (ks.zip vs).foldl (fun d kv => dictInsert kv.1 kv.2 d) []

/-- Keys of a record, in insertion order. -/
def dictKeys (d : Record) : List (List Char) :=
  d.map Prod.fst

/-- Embedding of Python `dict.get(k, deflt)`. -/
def dictGet (d : Record) (k deflt : List Char) : List Char :=
  match d.find? (fun kv => kv.1 = k) with
  | some kv => kv.2
  | none => deflt

/-- Cell splitting applied by `parse_markdown_table` to the header line and
to every body line (source lines 59 and 62): strip pipes from both ends,
split on pipe, strip each cell. -/
def rowCells (l : List Char) : List (List Char) :=
  (splitPipe (pyStripPipes l)).map pyStrip

/-- Qualifying lines of `parse_markdown_table` (source line 56): each line
of the text, stripped, that then starts with a pipe. -/
def qualifyingLines (md : List Char) : List (List Char) :=
  ((pySplitlines md).map pyStrip).filter (fun l => l.head? = some '|')

/-- Embedding of `parse_markdown_table` (source lines 54 to 66): fewer than
two qualifying lines give an empty result; the first qualifying line is the
header, the second is discarded, and each later line becomes a record when
its cell count equals the header length. -/
def parse_markdown_table (md : List Char) : List Record :=
  match qualifyingLines md with
  | l0 :: _ :: body =>
    let headers := rowCells l0
    body.foldl (fun rows row =>
      let cells := rowCells row
      if cells.length ≠ headers.length then rows
      else rows ++ [dictZip headers cells]) []
  | _ => []

/-- Embedding of `re.match` with the pattern used by `parse_numbered_list`
(source line 49): optional leading whitespace, one or more digits, an
optional dot, mandatory whitespace, then the captured rest of the line.
Greedy matching with backtracking reduces to this deterministic form: when
content follows the whitespace run the capture is that content; when the
line ends in a whitespace run of length at least two, the capture
backtracks to the last whitespace character. -/
def matchNumbered (line : List Char) : Option (List Char) :=
  let r1 := line.dropWhile pyIsSpace
  let ds := r1.takeWhile Char.isDigit
  let r2 := r1.dropWhile Char.isDigit
  if ds.isEmpty then none
  else
    let r3 := if r2.head? = some '.' then r2.tail else r2
    let w := r3.takeWhile pyIsSpace
    let t := r3.dropWhile pyIsSpace
    if w.isEmpty then none
    else if !t.isEmpty then some t
    else if 2 ≤ w.length then some [(w.getLast?.getD ' ')]
    else none

/-- Embedding of `parse_numbered_list` (source lines 39 to 52): collect the
stripped capture of every matching line, in order. -/
def parse_numbered_list (text : List Char) : List (List Char) :=
  (pySplitlines text).foldl (fun items line =>
    match matchNumbered line with
    | some g => items ++ [pyStrip g]
    | none => items) []

example : parse_numbered_list ("1. Alice\n2 Bob\nNotANumber\n3. Carol".toList) =
    [("Alice".toList), ("Bob".toList), ("Carol".toList)] := by decide

example : parse_markdown_table ("| A | B |\n| - | - |\n| x | y |".toList) =
    [[(("A".toList), ("x".toList)), (("B".toList), ("y".toList))]] := by decide

example : rowCells ("|a||".toList) = [("a".toList)] := by decide

/-- One role-tagged chat message, embedding the Python dicts with keys
`role` and `content`. -/
structure Msg where
  role : List Char
  content : List Char
deriving DecidableEq

/-- System message of `get_participants_prompt` (source line 82). -/
def participantsSystem : List Char :=
  ("You are a process modelling expert.".toList)

/-- User message of `get_participants_prompt` (source lines 83 to 89). -/
def participantsUser (sop_text : List Char) : List Char :=
  ("Identify the main participants that execute the processes mentioned the Standard Operating Procedure given below.\n".toList) ++
  ("Return a simple, single-level numbered list (e.g. “1. Alice”, “2. Bob”), with no extra text using only alphanumeric characters and spaces (no special characters):\n\n".toList) ++
  ("```\n".toList) ++
  sop_text ++ ("\n".toList) ++
  ("```".toList)

/-- Embedding of `get_participants_prompt` (source lines 81 to 93). -/
def get_participants_prompt (sop_text : List Char) : List Msg :=
  [⟨("system".toList), participantsSystem⟩,
   ⟨("user".toList), participantsUser sop_text⟩]

/-- User message of `get_bpmn_prompt` (source lines 100 to 121). -/
def bpmnUser (participant sop_text : List Char) : List Char :=
  ("As the participant **".toList) ++ participant ++
  ("** trying to understand what you need to do within this standard operating procedure and how you collaborate with the other participants based on the Standard Operating Procedure given below. Create a single Formalised Process Data table using the BPMN 2.0 Standard relating to all processes that you participate in, ensuring that all steps are represented.".toList) ++
  ("The tasks must fit within a single swim lane with a single start event.".toList) ++
  ("The result must be given in Markdown format, as a table with exactly these columns(nothing additional):\n\n".toList) ++
  ("| Object Type         | Object Name                           | Predecessor                           | Successor                                                               | Input Data                                    | Output Data                                  | Additional Information                                                |\n".toList) ++
  ("| ------------------- | ------------------------------------- | ------------------------------------- | ----------------------------------------------------------------------- | --------------------------------------------- | -------------------------------------------- | --------------------------------------------------------------------- |\n".toList) ++
  ("• Start Event         | Start Condition                       | N/A                                   | Name of next Object                                                     | N/A                                           | N/A                                          |                                                                       |\n".toList) ++
  ("• Receive Task        | Task X (where a message is recieved)  |                                       | Name of next Object                                                     |                                               | Name of Data Object 1; Name of Data Object 2 |                                                                       |\n".toList) ++
  ("• Gateway (Exclusive) | Condition for splitting sequence flow |                                       | Name of next Object (Condition 1) OR Name of next Object (Condition 2)  |                                               |                                              |                                                                       |\n".toList) ++
  ("• Send Task           | Task Y (where a message is sent)      | Only Object Name of Exclusive Gateway |                                                                         | Name of Data Object 1                         | Name of Data Object 3                        |                                                                       |\n".toList) ++
  ("• Task                | Task Z                                | Only Object Name of Exclusive Gateway |                                                                         | Name of Data Object 1                         | Name of Data Object 4                        | Additional information if any (special conditions, constraints, etc.) |\n".toList) ++
  ("• Gateway (Parallel)  | Parallel Gateway name                 |                                       | Name of Successor 1 AND Name of Successor 2.                            |                                               |                                              |                                                                       |\n".toList) ++
  ("• Task                | Task A                                | Only Object Name of Parallel Gateway  |                                                                         |                                               |                                              |                                                                       |\n".toList) ++
  ("• Task                | Task B                                | Only Object name of Parallel Gateway  |                                                                         | Name of Data Object 2; Name of Data Object 3  |                                              |                                                                       |\n".toList) ++
  ("• Intermediate Event  | Event Name                            | Task B                                | Task C                                                                  | N/A                                           | N/A                                          |                                                                       |\n".toList) ++
  ("• Task                | Task C                                | Event Name                            | End Condition                                                           | Name of Data Object 2                         |                                              |                                                                       |\n".toList) ++
  ("• End Event           | End Condition                         |                                       | N/A                                                                     | N/A                                           | N/A                                          |                                                                       |\n\n".toList) ++
  ("Use **only** these column headers and rows that reflect your own processes – no extra section headings, labels or comments.  \n\n".toList) ++
  ("```\n".toList) ++
  sop_text ++ ("\n".toList) ++
  ("```".toList)

/-- Embedding of `get_bpmn_prompt` (source lines 95 to 123). -/
def get_bpmn_prompt (participant sop_text : List Char) : List Msg :=
  [⟨("system".toList), ("You are an expert in BPMN 2.0 process modelling.".toList)⟩,
   ⟨("user".toList), bpmnUser participant sop_text⟩]

/-- System message of `get_message_flows_prompt` (source lines 128 to 136). -/
def mfSystem : List Char :=
  ("You are a process modeling expert trying to understand interactions between participants. Given below are markdown tables which specify the send and receive tasks as well as the associated data for each participant.".toList) ++
  ("Analyze all the participant’s sending and receiving tasks to identify all the message flows between them.".toList) ++
  ("Return a single Markdown table with exactly these columns:\n\n".toList) ++
  ("| Message Sent             | Sending Task            | Sending Participant          | Receiving Task          | Receiving Participant         |\n".toList) ++
  ("| ------------------------ | ----------------------- | ---------------------------- | ----------------------- | ----------------------------- |\n".toList) ++
  ("| Name of Message Sent     | Name of Send Task       | Name of Sending Participant  | Name of Receive Task    | Name of Receiving Participant |\n\n".toList) ++
  ("Only list Send → Receive flows that logically belong together.".toList)

/-- Embedding of the Python idiom `s or "—"` on an already stripped string
(source lines 155 and 156). -/
def orDash (l : List Char) : List Char :=
  if l.isEmpty then ("—".toList) else l

/-- Embedding of the mini-table construction of `get_message_flows_prompt`
(source lines 141 to 157). The source computes this value for every
participant and then never uses it: the full table text is sent instead. -/
def miniTableFor (md_table : List Char) : List Char :=
  let rows := parse_markdown_table md_table
  let activities := rows.filter (fun r =>
    match r.find? (fun kv => kv.1 = ("Object Type".toList)) with
    | some kv => kv.2 = ("Send Task".toList) || kv.2 = ("Receive Task".toList)
    | none => false)
  activities.foldl (fun mini act =>
    mini ++ ("| ".toList) ++ pyStrip (dictGet act ("Object Type".toList) []) ++
    (" | ".toList) ++ pyStrip (dictGet act ("Object Name".toList) []) ++
    (" | ".toList) ++ orDash (pyStrip (dictGet act ("Output Data".toList) [])) ++
    (" | ".toList) ++ orDash (pyStrip (dictGet act ("Input Data".toList) [])) ++
    (" |\n".toList))
    (("| Task Type | Task Name | Output Data | Input Data |\n".toList) ++
     ("| --------- | --------- | ----------- | ---------- |\n".toList))

/-- Labeled user section for one participant inside
`get_message_flows_prompt` (source line 160). -/
def mfSection (participant md_table : List Char) : List Char :=
  ("Tasks for ".toList) ++ participant ++ (":\n\n".toList) ++ md_table ++ ("\n".toList)

/-- Embedding of `get_message_flows_prompt` (source lines 126 to 168). The
mini table is computed per participant, as in the source, and discarded;
the user content joins the full-table sections with a blank line. -/
def get_message_flows_prompt (bpmn_tables : List (List Char × List Char)) : List Msg :=
  let user_sections := bpmn_tables.map (fun pt =>
    let _mini := miniTableFor pt.2
    mfSection pt.1 pt.2)
  [⟨("system".toList), mfSystem⟩,
   ⟨("user".toList), List.intercalate ("\n\n".toList) user_sections⟩]

/-- Embedding of one `csv.DictWriter.writerow` call with the default
extras handling: a key of the record that is not among the field names
raises `ValueError`; otherwise the cells are emitted in header order with
the empty string for missing keys. -/
def csvRow (headers : List (List Char)) (r : Record) : Except Unit (List (List Char)) :=
  if r.all (fun kv => headers.contains kv.1) then
    Except.ok (headers.map (fun h => dictGet r h []))
  else Except.error ()

/-- Embedding of `write_csv` (source lines 68 to 75): the rows are written
in order and the first record carrying a key outside the header aborts
with `ValueError`. -/
def write_csv (rows : List Record) (headers : List (List Char)) :
    Except Unit (List (List (List Char))) :=
  match rows with
  | [] => Except.ok []
  | r :: rest =>
    match csvRow headers r with
    | Except.error e => Except.error e
    | Except.ok cells =>
      match write_csv rest headers with
      | Except.error e => Except.error e
      | Except.ok others => Except.ok (cells :: others)

/-- Word characters of the regex class `\w` (ASCII range): alphanumeric or
underscore. -/
def isWordChar (c : Char) : Bool :=
  c.isAlphanum || c = '_'

/-- Character class `[^\w\-]` of the substitution at source line 204. -/
def nonWordNonHyphen (c : Char) : Bool :=
  !(isWordChar c || c = '-')

/-- Embedding of `re.sub(cls+, "_", s)` for a character class `cls`: every
maximal run of class characters becomes one underscore. The flag records
whether the previous character belonged to the current run. -/
def reSubAux (bad : Char → Bool) : List Char → Bool → List Char
  | [], _ => []
  | c :: cs, inRun =>
    if bad c then
      if inRun then reSubAux bad cs true
      else '_' :: reSubAux bad cs true
    else c :: reSubAux bad cs false

/-- Replacement of every maximal run of `bad` characters by one
underscore. -/
def reSub (bad : Char → Bool) (l : List Char) : List Char :=
  reSubAux bad l false

/-- Embedding of `safe = re.sub(r"[^\w\-]+", "_", p)` (source line 204). -/
def sanitize (p : List Char) : List Char :=
  reSub nonWordNonHyphen p

/-- Embedding of `os.path.join` for the two-argument uses in `main`
(source lines 205 and 223). -/
def osPathJoin (d n : List Char) : List Char :=
  if d.isEmpty then n
  else if n.head? = some '/' then n
  else if d.getLast? = some '/' then d ++ n
  else d ++ '/' :: n

/-- Fixed seven-column process-record header (source line 195). -/
def processHeaders : List (List Char) :=
  [("Object Type".toList), ("Object Name".toList), ("Predecessor".toList),
   ("Successor".toList), ("Input Data".toList), ("Output Data".toList),
   ("Additional Information".toList)]

/-- Fixed five-column message-flow header (source lines 216 to 222). -/
def mfHeaders : List (List Char) :=
  [("Message Sent".toList), ("Sending Task".toList),
   ("Sending Participant".toList), ("Receiving Task".toList),
   ("Receiving Participant".toList)]

/-- Ways the Python process dies with an uncaught exception. -/
inductive Crash where
  | remoteCallError
  | valueError
deriving DecidableEq

/-- Terminal condition of one run of `main`. -/
inductive Outcome where
  | noText
  | noParticipants
  | completed
  | crashed (c : Crash)
deriving DecidableEq

/-- One CSV artifact written by `write_csv`: destination path, header, and
the emitted cell rows. -/
structure Artifact where
  path : List Char
  header : List (List Char)
  rows : List (List (List Char))
deriving DecidableEq

/-- Working state of the stage-2 loop of `main`: next oracle call index,
conversations sent so far, artifacts written so far, participants whose
table could not be parsed, and the retained raw-table dict `bpmn_tables`. -/
structure LoopAcc where
  k : Nat
  calls : List (List Msg)
  artifacts : List Artifact
  failures : List (List Char)
  tables : List (List Char × List Char)
deriving DecidableEq

/-- Observable result of one run of `main`. -/
structure RunResult where
  calls : List (List Msg)
  artifacts : List Artifact
  failures : List (List Char)
  outcome : Outcome
deriving DecidableEq

/-- The generative backend: the reply text of the n-th chat completion, or
a remote-call failure. -/
abbrev Oracle := Nat → Except Unit (List Char)

/-- Embedding of `call_gpt` (source lines 31 to 37): the reply content is
stripped of surrounding whitespace; a failure propagates as an exception. -/
def call_gpt (oracle : Oracle) (k : Nat) : Except Unit (List Char) :=
  match oracle k with
  | Except.ok t => Except.ok (pyStrip t)
  | Except.error e => Except.error e

/-- One iteration of the stage-2 loop of `main` (source lines 197 to 208):
call the model for the participant, parse the reply, skip the participant
on an empty parse, otherwise write the per-participant artifact and retain
the raw reply. An uncaught exception carries the state at the crash. -/
def stage2Step (oracle : Oracle) (sop_text output_dir : List Char)
    (acc : LoopAcc) (p : List Char) : Except (Crash × LoopAcc) LoopAcc :=
  let conv := get_bpmn_prompt p sop_text
  let calls := acc.calls ++ [conv]
  match call_gpt oracle acc.k with
  | Except.error _ =>
    Except.error (Crash.remoteCallError, { acc with k := acc.k + 1, calls := calls })
  | Except.ok md =>
    let rows := parse_markdown_table md
    if rows.isEmpty then
      Except.ok { acc with k := acc.k + 1, calls := calls,
                           failures := acc.failures ++ [p] }
    else
      let safe := sanitize p
      let out := osPathJoin output_dir (safe ++ ("_bpmn.csv".toList))
      match write_csv rows processHeaders with
      | Except.error _ =>
        Except.error (Crash.valueError, { acc with k := acc.k + 1, calls := calls })
      | Except.ok content =>
        Except.ok { acc with k := acc.k + 1, calls := calls,
                             artifacts := acc.artifacts ++ [⟨out, processHeaders, content⟩],
                             tables := dictInsert p md acc.tables }

/-- The stage-2 loop of `main` over the participant sequence. -/
def stage2 (oracle : Oracle) (sop_text output_dir : List Char) :
    LoopAcc → List (List Char) → Except (Crash × LoopAcc) LoopAcc
  | acc, [] => Except.ok acc
  | acc, p :: ps =>
    match stage2Step oracle sop_text output_dir acc p with
    | Except.error e => Except.error e
    | Except.ok acc₂ => stage2 oracle sop_text output_dir acc₂ ps

/-- Embedding of `main` (source lines 176 to 229). The document text is
taken directly, standing for the extracted PDF text. -/
def mainModel (oracle : Oracle) (sop_text output_dir : List Char) : RunResult :=
  if (pyStrip sop_text).isEmpty then ⟨[], [], [], Outcome.noText⟩
  else
    let conv1 := get_participants_prompt sop_text
    match call_gpt oracle 0 with
    | Except.error _ => ⟨[conv1], [], [], Outcome.crashed Crash.remoteCallError⟩
    | Except.ok resp =>
      let participants := parse_numbered_list resp
      if participants.isEmpty then ⟨[conv1], [], [], Outcome.noParticipants⟩
      else
        match stage2 oracle sop_text output_dir ⟨1, [conv1], [], [], []⟩ participants with
        | Except.error (c, acc) => ⟨acc.calls, acc.artifacts, acc.failures, Outcome.crashed c⟩
        | Except.ok acc =>
          if acc.tables.isEmpty then
            ⟨acc.calls, acc.artifacts, acc.failures, Outcome.completed⟩
          else
            let convMF := get_message_flows_prompt acc.tables
            let calls := acc.calls ++ [convMF]
            match call_gpt oracle acc.k with
            | Except.error _ =>
              ⟨calls, acc.artifacts, acc.failures, Outcome.crashed Crash.remoteCallError⟩
            | Except.ok mf =>
              let mf_rows := parse_markdown_table mf
              if mf_rows.isEmpty then
                ⟨calls, acc.artifacts, acc.failures, Outcome.completed⟩
              else
                match write_csv mf_rows mfHeaders with
                | Except.error _ =>
                  ⟨calls, acc.artifacts, acc.failures, Outcome.crashed Crash.valueError⟩
                | Except.ok content =>
                  ⟨calls,
                   acc.artifacts ++
                     [⟨osPathJoin output_dir ("message_flows.csv".toList), mfHeaders, content⟩],
                   acc.failures, Outcome.completed⟩

/-- Content of a destination path after a sequence of whole-file writes:
the last write to that path wins. -/
def lastWrite (arts : List Artifact) (path : List Char) : Option Artifact :=
  (arts.filter (fun a => a.path = path)).getLast?

/-- Join of a list of pieces with a separator between consecutive pieces,
the recursive form of `List.intercalate`. -/
def joinSep (sep : List Char) : List (List Char) → List Char
  | [] => []
  | [l] => l
  | l :: ls => l ++ sep ++ joinSep sep ls

/-- Rendering of one pipe-table line from a list of cells. -/
def renderRow (cells : List (List Char)) : List Char :=
  ("| ".toList) ++ joinSep (" | ".toList) cells ++ (" |".toList)

/-- Rendering of a dash separator line matching a header. -/
def sepRow (hdr : List (List Char)) : List Char :=
  renderRow (hdr.map (fun _ => ("---".toList)))

/-- Rendering of a pipe table: header line, separator line, then one line
per body row, joined by newlines. -/
def renderTable (hdr : List (List Char)) (rows : List (List (List Char))) : List Char :=
  joinSep ("\n".toList) ([renderRow hdr, sepRow hdr] ++ rows.map renderRow)

/-- Well-formedness of a cell for the round-trip property: no surrounding
whitespace, no pipe character, and no line-break character (so that the
rendered table really has one line per row). -/
def cleanCell (cell : List Char) : Bool :=
  (match cell.head? with | some ch => !pyIsSpace ch | none => true) &&
  (match cell.getLast? with | some ch => !pyIsSpace ch | none => true) &&
  cell.all (fun ch => ch ≠ '|' && !isLineBreak ch)

/-- Removal of at most one leading and one trailing pipe, the transform the
claim about cell splitting describes. -/
def stripOnePipe (l : List Char) : List Char :=
  let l₁ := if l.head? = some '|' then l.tail else l
  if l₁.getLast? = some '|' then l₁.dropLast else l₁

/-- Cell splitting as the claim describes it: strip surrounding whitespace,
remove exactly one leading and one trailing pipe, split on pipe, trim each
cell. -/
def claimCells (l : List Char) : List (List Char) :=
  (splitPipe (stripOnePipe (pyStrip l))).map pyStrip

/-- Label produced by one line of `parse_numbered_list`: the stripped
capture of the line match, when the line matches. -/
def numberedLabel (line : List Char) : Option (List Char) :=
  (matchNumbered line).map pyStrip

/-- Declarative reading of a numbered-list line: optional leading
whitespace, an index of one or more digits, an optional dot, mandatory
whitespace, and a non-empty remainder whose stripped value is the label. -/
def NumberedLineSpec (line v : List Char) : Prop :=
  ∃ w d dot sp lab,
    line = w ++ d ++ dot ++ sp ++ lab ∧
    (∀ c ∈ w, pyIsSpace c = true) ∧
    d ≠ [] ∧ (∀ c ∈ d, c.isDigit = true) ∧
    (dot = [] ∨ dot = ['.']) ∧
    sp ≠ [] ∧ (∀ c ∈ sp, pyIsSpace c = true) ∧
    lab ≠ [] ∧
    v = pyStrip lab

/-- Line matcher exactly as the claim states the pattern, with no allowance
for leading whitespace: the line must start with the index digits. Apart
from the missing leading-whitespace step it follows `matchNumbered`. -/
def claimMatchNumbered (line : List Char) : Option (List Char) :=
  let ds := line.takeWhile Char.isDigit
  let r2 := line.dropWhile Char.isDigit
  if ds.isEmpty then none
  else
    let r3 := if r2.head? = some '.' then r2.tail else r2
    let w := r3.takeWhile pyIsSpace
    let t := r3.dropWhile pyIsSpace
    if w.isEmpty then none
    else if !t.isEmpty then some t
    else if 2 ≤ w.length then some [(w.getLast?.getD ' ')]
    else none

/-- Output the claim predicts for `parse_numbered_list`: the trimmed labels
of the lines matching the claim pattern. -/
def claimLabels (text : List Char) : List (List Char) :=
  (pySplitlines text).filterMap (fun line => (claimMatchNumbered line).map pyStrip)

/-- Character class of the sanitization transform as the claim states it:
non-alphanumeric, non-hyphen characters, underscores included. -/
def claimBad (c : Char) : Bool :=
  !(c.isAlphanum || c = '-')

/-- Sanitization as the claim describes it: runs of `claimBad` characters
collapsed to one underscore. -/
def claimSanitize (p : List Char) : List Char :=
  reSub claimBad p

/-- Well-formed seven-column reply table used by concrete runs. -/
def tblGood : List Char :=
  ("| Object Type | Object Name | Predecessor | Successor | Input Data | Output Data | Additional Information |\n".toList) ++
  ("| --- | --- | --- | --- | --- | --- | --- |\n".toList) ++
  ("| Task | T1 | a | b | c | d | e |".toList)

/-- Second well-formed seven-column reply table with different cells. -/
def tblGood2 : List Char :=
  ("| Object Type | Object Name | Predecessor | Successor | Input Data | Output Data | Additional Information |\n".toList) ++
  ("| --- | --- | --- | --- | --- | --- | --- |\n".toList) ++
  ("| Send Task | T2 | f | g | h | i | j |".toList)

/-- Reply table whose header carries a column outside the fixed seven. -/
def tblBadCol : List Char :=
  ("| Object Type | Object Name | Predecessor | Successor | Input Data | Output Data | Additional Information | Extra |\n".toList) ++
  ("| --- | --- | --- | --- | --- | --- | --- | --- |\n".toList) ++
  ("| Task | T1 | a | b | c | d | e | x |".toList)

/-- Oracle for the stage-2 remote-failure counterexample: three
participants, the second model call fails remotely. -/
def oracleRemoteFail : Oracle := fun k =>
  if k = 0 then Except.ok ("1. A\n2. B\n3. C".toList)
  else if k = 1 then Except.ok tblGood
  else if k = 2 then Except.error ()
  else Except.ok ("x".toList)

/-- Oracle for the recoverable parse-failure run: three participants, the
second reply unparsable, the message-flow reply unparsable. -/
def oracleParseFail : Oracle := fun k =>
  if k = 0 then Except.ok ("1. A\n2. B\n3. C".toList)
  else if k = 1 then Except.ok tblGood
  else if k = 2 then Except.ok ("junk".toList)
  else if k = 3 then Except.ok tblGood2
  else Except.ok ("junk".toList)

/-- Oracle for the extra-column persistence failure: one participant whose
reply parses but carries an extra column. -/
def oracleExtraCol : Oracle := fun k =>
  if k = 0 then Except.ok ("1. A".toList)
  else Except.ok tblBadCol

/-- Oracle for the duplicate-participant run: the same label twice, two
different parsable tables, then an unparsable message-flow reply. -/
def oracleDup : Oracle := fun k =>
  if k = 0 then Except.ok ("1. A\n2. A".toList)
  else if k = 1 then Except.ok tblGood
  else if k = 2 then Except.ok tblGood2
  else Except.ok ("junk".toList)

/-! ### General list lemmas -/

theorem dropWhile_append_all {α : Type} (p : α → Bool) (xs ys : List α)
    (h : ∀ a ∈ xs, p a = true) : (xs ++ ys).dropWhile p = ys.dropWhile p := by
  induction xs with
  | nil => rfl
  | cons c cs ih =>
    have hc := h c (by simp)
    simp [List.dropWhile_cons, hc]
    exact ih (fun a ha => h a (by simp [ha]))

theorem takeWhile_append_all {α : Type} (p : α → Bool) (xs ys : List α)
    (h : ∀ a ∈ xs, p a = true) : (xs ++ ys).takeWhile p = xs ++ ys.takeWhile p := by
  induction xs with
  | nil => rfl
  | cons c cs ih =>
    have hc := h c (by simp)
    simp [List.takeWhile_cons, hc]
    exact ih (fun a ha => h a (by simp [ha]))

theorem dropWhile_cons_false {α : Type} (p : α → Bool) (c : α) (cs : List α)
    (h : p c = false) : (c :: cs).dropWhile p = c :: cs := by
  simp [List.dropWhile_cons, h]

theorem takeWhile_cons_false {α : Type} (p : α → Bool) (c : α) (cs : List α)
    (h : p c = false) : (c :: cs).takeWhile p = [] := by
  simp [List.takeWhile_cons, h]

theorem head?_dropWhile {α : Type} (p : α → Bool) (l : List α) :
    ∀ ch, (l.dropWhile p).head? = some ch → p ch = false := by
  induction l with
  | nil => intro ch h; simp [List.dropWhile] at h
  | cons c cs ih =>
    intro ch h
    by_cases hc : p c = true
    · rw [List.dropWhile_cons, if_pos hc] at h
      exact ih ch h
    · rw [List.dropWhile_cons, if_neg hc] at h
      simp at h
      rw [← h]
      simpa using hc

theorem dropWhile_eq_self_of_head {α : Type} (p : α → Bool) (l : List α)
    (h : ∀ ch, l.head? = some ch → p ch = false) : l.dropWhile p = l := by
  cases l with
  | nil => rfl
  | cons c cs => exact dropWhile_cons_false p c cs (h c rfl)

theorem dropWhile_nil_of_all {α : Type} (p : α → Bool) (l : List α)
    (h : ∀ a ∈ l, p a = true) : l.dropWhile p = [] := by
  have := dropWhile_append_all p l [] h
  simpa using this

theorem dropTrailing_eq_self (p : Char → Bool) (l : List Char)
    (h : ∀ ch, l.getLast? = some ch → p ch = false) : dropTrailing p l = l := by
  unfold dropTrailing
  rw [dropWhile_eq_self_of_head p l.reverse, List.reverse_reverse]
  intro ch hch
  apply h
  rw [← List.head?_reverse]
  exact hch

theorem pyStrip_eq_self (l : List Char)
    (h1 : ∀ ch, l.head? = some ch → pyIsSpace ch = false)
    (h2 : ∀ ch, l.getLast? = some ch → pyIsSpace ch = false) : pyStrip l = l := by
  unfold pyStrip
  rw [dropWhile_eq_self_of_head pyIsSpace l h1]
  exact dropTrailing_eq_self pyIsSpace l h2

theorem pyStrip_all_space (l : List Char)
    (h : ∀ c ∈ l, pyIsSpace c = true) : pyStrip l = [] := by
  unfold pyStrip
  rw [dropWhile_nil_of_all pyIsSpace l h]
  rfl

theorem pyStrip_dropWhile_space (l : List Char) :
    pyStrip (l.dropWhile pyIsSpace) = pyStrip l := by
  unfold pyStrip
  rw [dropWhile_eq_self_of_head pyIsSpace (l.dropWhile pyIsSpace) (head?_dropWhile pyIsSpace l)]

theorem pyStrip_pad (c : List Char)
    (h1 : ∀ ch, c.head? = some ch → pyIsSpace ch = false)
    (h2 : ∀ ch, c.getLast? = some ch → pyIsSpace ch = false) :
    pyStrip (' ' :: (c ++ [' '])) = c := by
  cases c with
  | nil => decide
  | cons c₀ cs =>
    have hc₀ : pyIsSpace c₀ = false := h1 c₀ rfl
    unfold pyStrip
    have hsp : pyIsSpace ' ' = true := by decide
    rw [List.dropWhile_cons, if_pos hsp, List.cons_append,
        dropWhile_cons_false pyIsSpace c₀ (cs ++ [' ']) hc₀]
    unfold dropTrailing
    have hrev : (c₀ :: (cs ++ [' '])).reverse = ' ' :: (c₀ :: cs).reverse := by
      simp
    rw [hrev, List.dropWhile_cons, if_pos hsp,
        dropWhile_eq_self_of_head pyIsSpace (c₀ :: cs).reverse, List.reverse_reverse]
    intro ch hch
    apply h2
    rw [← List.head?_reverse]
    exact hch

/-! ### splitPipe lemmas -/

theorem splitPipeGo_no_pipe :
    ∀ (l acc : List Char), (∀ c ∈ l, ¬ c = '|') →
      splitPipeGo l acc = [acc.reverse ++ l] := by
  intro l
  induction l with
  | nil => intro acc _; simp [splitPipeGo]
  | cons c cs ih =>
    intro acc h
    have hc : ¬ c = '|' := h c (by simp)
    have step : splitPipeGo (c :: cs) acc = splitPipeGo cs (c :: acc) := by
      simp [splitPipeGo, hc]
    rw [step, ih (c :: acc) (fun a ha => h a (by simp [ha]))]
    simp

theorem splitPipe_no_pipe (l : List Char) (h : ∀ c ∈ l, ¬ c = '|') :
    splitPipe l = [l] := by
  simpa using splitPipeGo_no_pipe l [] h

theorem splitPipeGo_append :
    ∀ (a b acc : List Char), (∀ c ∈ a, ¬ c = '|') →
      splitPipeGo (a ++ '|' :: b) acc = (acc.reverse ++ a) :: splitPipeGo b [] := by
  intro a
  induction a with
  | nil =>
    intro b acc _
    simp [splitPipeGo]
  | cons c cs ih =>
    intro b acc h
    have hc : ¬ c = '|' := h c (by simp)
    have step : splitPipeGo ((c :: cs) ++ '|' :: b) acc =
        splitPipeGo (cs ++ '|' :: b) (c :: acc) := by
      simp [splitPipeGo, hc]
    rw [step, ih b (c :: acc) (fun a ha => h a (by simp [ha]))]
    simp

theorem splitPipe_append (a b : List Char) (h : ∀ c ∈ a, ¬ c = '|') :
    splitPipe (a ++ '|' :: b) = a :: splitPipe b := by
  simpa [splitPipe] using splitPipeGo_append a b [] h

/-! ### splitlines lemmas -/

theorem splitlinesGo_no_break :
    ∀ (a acc : List Char), (∀ c ∈ a, isLineBreak c = false) →
      splitlinesGo a acc false =
        if acc.isEmpty && a.isEmpty then [] else [acc.reverse ++ a] := by
  intro a
  induction a with
  | nil =>
    intro acc _
    simp [splitlinesGo]
  | cons c cs ih =>
    intro acc h
    have hc : isLineBreak c = false := h c (by simp)
    have hcr : ¬ c = '\r' := by
      intro e; rw [e] at hc; exact absurd hc (by decide)
    have step : splitlinesGo (c :: cs) acc false = splitlinesGo cs (c :: acc) false := by
      simp [splitlinesGo, hcr, hc]
    rw [step, ih (c :: acc) (fun x hx => h x (by simp [hx]))]
    simp

theorem splitlinesGo_newline :
    ∀ (a b acc : List Char), (∀ c ∈ a, isLineBreak c = false) →
      splitlinesGo (a ++ '\n' :: b) acc false =
        (acc.reverse ++ a) :: splitlinesGo b [] false := by
  intro a
  induction a with
  | nil =>
    intro b acc _
    have step : splitlinesGo (([] : List Char) ++ '\n' :: b) acc false =
        acc.reverse :: splitlinesGo b [] false := by
      simp [splitlinesGo, isLineBreak]
    rw [step]
    simp
  | cons c cs ih =>
    intro b acc h
    have hc : isLineBreak c = false := h c (by simp)
    have hcr : ¬ c = '\r' := by
      intro e; rw [e] at hc; exact absurd hc (by decide)
    have step : splitlinesGo ((c :: cs) ++ '\n' :: b) acc false =
        splitlinesGo (cs ++ '\n' :: b) (c :: acc) false := by
      simp [splitlinesGo, hcr, hc]
    rw [step, ih b (c :: acc) (fun x hx => h x (by simp [hx]))]
    simp

theorem pySplitlines_joinSep :
    ∀ (ls : List (List Char)), ls ≠ [] →
      (∀ l ∈ ls, l ≠ [] ∧ ∀ c ∈ l, isLineBreak c = false) →
      pySplitlines (joinSep (("\n").toList) ls) = ls := by
  intro ls
  induction ls with
  | nil => intro h _; exact absurd rfl h
  | cons l rest ih =>
    intro _ h
    cases rest with
    | nil =>
      have hl := h l (by simp)
      unfold pySplitlines
      rw [show joinSep (("\n").toList) [l] = l from rfl]
      rw [splitlinesGo_no_break l [] hl.2]
      simp [List.isEmpty_iff, hl.1]
    | cons l₂ rest₂ =>
      have hl := h l (by simp)
      have hjoin : joinSep (("\n").toList) (l :: l₂ :: rest₂) =
          l ++ '\n' :: joinSep (("\n").toList) (l₂ :: rest₂) := by
        simp [joinSep]
      unfold pySplitlines
      rw [hjoin, splitlinesGo_newline l _ [] hl.2]
      have := ih (by simp) (fun x hx => h x (by simp [hx]))
      unfold pySplitlines at this
      rw [this]
      simp

/-! ### Dict lemmas -/

theorem mem_dictKeys_dictInsert (a k v : List Char) (d : Record) :
    a ∈ dictKeys (dictInsert k v d) ↔ a = k ∨ a ∈ dictKeys d := by
  induction d with
  | nil => simp [dictInsert, dictKeys]
  | cons kv rest ih =>
    obtain ⟨k₀, v₀⟩ := kv
    by_cases hk : k₀ = k
    · subst hk
      simp [dictInsert, dictKeys]
    · simp only [dictInsert, if_neg hk, dictKeys, List.map_cons, List.mem_cons]
      rw [show (List.map Prod.fst (dictInsert k v rest) : List (List Char)) =
            dictKeys (dictInsert k v rest) from rfl, ih]
      tauto

theorem dictInsert_of_not_mem (k v : List Char) (d : Record)
    (h : k ∉ dictKeys d) : dictInsert k v d = d ++ [(k, v)] := by
  induction d with
  | nil => rfl
  | cons kv rest ih =>
    obtain ⟨k₀, v₀⟩ := kv
    have hk : ¬ k₀ = k := by
      intro e; apply h; simp [dictKeys, e]
    simp only [dictInsert, if_neg hk, List.cons_append, List.cons.injEq, true_and]
    exact ih (fun hm => h (by simp [dictKeys] at hm ⊢; tauto))

theorem foldl_dictInsert_append :
    ∀ (pairs : List (List Char × List Char)) (d : Record),
      (pairs.map Prod.fst).Nodup →
      (∀ k ∈ pairs.map Prod.fst, k ∉ dictKeys d) →
      pairs.foldl (fun d kv => dictInsert kv.1 kv.2 d) d = d ++ pairs := by
  intro pairs
  induction pairs with
  | nil => intro d _ _; simp
  | cons kv rest ih =>
    intro d hnd hdisj
    obtain ⟨k, v⟩ := kv
    rw [List.map_cons, List.nodup_cons] at hnd
    have hk : k ∉ dictKeys d := hdisj k (by simp)
    have hrest : ∀ a ∈ rest.map Prod.fst, a ∉ dictKeys (d ++ [(k, v)]) := by
      intro a ha hmem
      rw [dictKeys, List.map_append, List.mem_append] at hmem
      rcases hmem with hmem | hmem
      · exact hdisj a (by simp [ha]) hmem
      · simp at hmem
        rw [hmem] at ha
        exact hnd.1 ha
    have hnd₂ : (rest.map Prod.fst).Nodup := hnd.2
    simp only [List.foldl_cons]
    rw [dictInsert_of_not_mem k v d hk, ih (d ++ [(k, v)]) hnd₂ hrest]
    simp

theorem map_fst_zip_sublist {α β : Type} :
    ∀ (ks : List α) (vs : List β), ((ks.zip vs).map Prod.fst).Sublist ks := by
  intro ks
  induction ks with
  | nil => intro vs; simp
  | cons k ks ih =>
    intro vs
    cases vs with
    | nil => simp
    | cons v vs =>
      simp only [List.zip_cons_cons, List.map_cons]
      exact (ih vs).cons₂ k

theorem dictZip_eq_zip (ks vs : List (List Char)) (h : ks.Nodup) :
    dictZip ks vs = ks.zip vs := by
  unfold dictZip
  have := foldl_dictInsert_append (ks.zip vs) []
    (List.Nodup.sublist (map_fst_zip_sublist ks vs) h)
    (by intro k _ hk; simp [dictKeys] at hk)
  simpa using this

theorem mem_dictKeys_foldl :
    ∀ (pairs : List (List Char × List Char)) (d : Record) (a : List Char),
      (a ∈ dictKeys d ∨ a ∈ pairs.map Prod.fst) →
      a ∈ dictKeys (pairs.foldl (fun d kv => dictInsert kv.1 kv.2 d) d) := by
  intro pairs
  induction pairs with
  | nil =>
    intro d a h
    simpa using h.resolve_right (by simp)
  | cons kv rest ih =>
    intro d a h
    obtain ⟨k, v⟩ := kv
    simp only [List.foldl_cons]
    apply ih
    rcases h with h | h
    · left
      rw [mem_dictKeys_dictInsert]
      right; exact h
    · rw [List.map_cons, List.mem_cons] at h
      rcases h with h | h
      · left
        rw [mem_dictKeys_dictInsert]
        left; exact h
      · right; exact h

theorem mem_dictKeys_dictZip (k : List Char) (ks vs : List (List Char))
    (hk : k ∈ ks) (hlen : ks.length ≤ vs.length) :
    k ∈ dictKeys (dictZip ks vs) := by
  apply mem_dictKeys_foldl
  right
  rw [List.map_fst_zip ks vs hlen]
  exact hk

/-! ### Parse characterization -/

theorem foldl_rows_filterMap (headers : List (List Char)) :
    ∀ (body : List (List Char)) (acc : List Record),
      body.foldl (fun rows row =>
        let cells := rowCells row
        if cells.length ≠ headers.length then rows
        else rows ++ [dictZip headers cells]) acc
      = acc ++ body.filterMap (fun row =>
          if (rowCells row).length ≠ headers.length then none
          else some (dictZip headers (rowCells row))) := by
  intro body
  induction body with
  | nil => intro acc; simp
  | cons r rest ih =>
    intro acc
    rw [List.foldl_cons, List.filterMap_cons]
    by_cases hr : (rowCells r).length ≠ headers.length
    · rw [if_pos hr, if_pos hr, ih]
    · rw [if_neg hr, if_neg hr, ih]
      simp

theorem parse_markdown_table_eq (md l0 l1 : List Char) (body : List (List Char))
    (h : qualifyingLines md = l0 :: l1 :: body) :
    parse_markdown_table md =
      body.filterMap (fun row =>
        if (rowCells row).length ≠ (rowCells l0).length then none
        else some (dictZip (rowCells l0) (rowCells row))) := by
  unfold parse_markdown_table
  rw [h]
  simpa using foldl_rows_filterMap (rowCells l0) body []

theorem filterMap_if_all {α β : Type} (P : α → Prop) [DecidablePred P] (f : α → β) :
    ∀ (l : List α), (∀ a ∈ l, ¬ P a) →
      l.filterMap (fun a => if P a then none else some (f a)) = l.map f := by
  intro l
  induction l with
  | nil => intro _; rfl
  | cons a rest ih =>
    intro h
    rw [List.filterMap_cons]
    rw [if_neg (h a (by simp)), ih (fun x hx => h x (by simp [hx])), List.map_cons]

theorem mem_parse_markdown_table (md l0 l1 : List Char) (body : List (List Char)) (r : Record)
    (h : qualifyingLines md = l0 :: l1 :: body) (hr : r ∈ parse_markdown_table md) :
    ∃ row ∈ body, (rowCells row).length = (rowCells l0).length ∧
      r = dictZip (rowCells l0) (rowCells row) := by
  rw [parse_markdown_table_eq md l0 l1 body h, List.mem_filterMap] at hr
  obtain ⟨row, hrow, heq⟩ := hr
  by_cases hc : (rowCells row).length ≠ (rowCells l0).length
  · rw [if_pos hc] at heq
    cases heq
  · rw [if_neg hc] at heq
    refine ⟨row, hrow, not_ne_iff.mp hc, ?_⟩
    injection heq with heq
    exact heq.symm

/-- C4: with fewer than two qualifying pipe-initial lines the parser
returns no records; and a body row whose cell count differs from the
header width is dropped while every neighboring row with matching cell
count still becomes a record, in order. -/
theorem tableParser_rejects (md : List Char) :
    ((qualifyingLines md).length < 2 → parse_markdown_table md = []) ∧
    (∀ (l0 l1 : List Char) (pre : List (List Char)) (bad : List Char)
       (post : List (List Char)),
      qualifyingLines md = l0 :: l1 :: (pre ++ bad :: post) →
      (rowCells bad).length ≠ (rowCells l0).length →
      (∀ row ∈ pre ++ post, (rowCells row).length = (rowCells l0).length) →
      parse_markdown_table md =
        (pre ++ post).map (fun row => dictZip (rowCells l0) (rowCells row))) := by
  constructor
  · intro hlen
    unfold parse_markdown_table
    cases hq : qualifyingLines md with
    | nil => rfl
    | cons a t =>
      cases t with
      | nil => rfl
      | cons b t₂ =>
        rw [hq] at hlen
        simp at hlen
        omega
  · intro l0 l1 pre bad post hq hbad hgood
    rw [parse_markdown_table_eq md l0 l1 (pre ++ bad :: post) hq]
    rw [List.filterMap_append, List.filterMap_cons]
    rw [if_pos hbad]
    rw [show (fun row => if (rowCells row).length ≠ (rowCells l0).length then none
          else some (dictZip (rowCells l0) (rowCells row))) =
        (fun row => if ((rowCells row).length ≠ (rowCells l0).length : Prop) then none
          else some ((fun r => dictZip (rowCells l0) (rowCells r)) row)) from rfl]
    rw [filterMap_if_all _ _ pre (fun a ha h => h (hgood a (by simp [ha]))),
        filterMap_if_all _ _ post (fun a ha h => h (hgood a (by simp [ha]))),
        List.map_append]

/-- Witness for C4 at concrete inputs: a pipe-free text parses to nothing,
and a five-line table with one malformed middle row yields exactly the two
records of its well-formed rows. -/
theorem tableParser_rejects_witness :
    parse_markdown_table ("no pipes here\njust text".toList) = [] ∧
    parse_markdown_table
        ("| A | B |\n| - | - |\n| x | y |\n| bad |\n| u | v |".toList) =
      [[(("A".toList), ("x".toList)), (("B".toList), ("y".toList))],
       [(("A".toList), ("u".toList)), (("B".toList), ("v".toList))]] := by
  constructor
  · exact (tableParser_rejects _).1 (by decide)
  · have h := (tableParser_rejects
        ("| A | B |\n| - | - |\n| x | y |\n| bad |\n| u | v |".toList)).2
      ("| A | B |".toList) ("| - | - |".toList)
      [("| x | y |".toList)] ("| bad |".toList) [("| u | v |".toList)]
      (by decide) (by decide) (by decide)
    rw [h]
    decide

/-! ### C3: cell splitting strips all boundary pipes -/

theorem pyStripPipes_sandwich (m n : Nat) (s : List Char)
    (hne : s ≠ []) (hh : s.head? ≠ some '|') (hl : s.getLast? ≠ some '|') :
    pyStripPipes (List.replicate m '|' ++ s ++ List.replicate n '|') = s := by
  unfold pyStripPipes
  rw [List.append_assoc]
  rw [dropWhile_append_all _ (List.replicate m '|') _
      (fun a ha => by rw [List.eq_of_mem_replicate ha]; decide)]
  cases s with
  | nil => exact absurd rfl hne
  | cons c s₀ =>
    have hc : ¬ c = '|' := fun e => hh (by simp [e])
    rw [List.cons_append, dropWhile_cons_false _ c (s₀ ++ List.replicate n '|')
        (by simpa using hc)]
    unfold dropTrailing
    rw [show (c :: (s₀ ++ List.replicate n '|')) = ((c :: s₀) ++ List.replicate n '|') from rfl]
    rw [List.reverse_append, List.reverse_replicate]
    rw [dropWhile_append_all _ (List.replicate n '|') _
        (fun a ha => by rw [List.eq_of_mem_replicate ha]; decide)]
    rw [dropWhile_eq_self_of_head _ _ (fun ch hch => by
      rw [List.head?_reverse] at hch
      have : ¬ ch = '|' := fun e => hl (by rw [← e]; exact hch)
      simpa using this)]
    exact List.reverse_reverse _

/-- C3 (amended): for a qualifying line consisting of one or more leading
pipes, a core that neither starts nor ends with a pipe, and one or more
trailing pipes, the parser strips all boundary pipes, splits the core on
pipe, and trims each resulting cell; extra boundary pipes therefore add no
cells. -/
theorem tableParser_cell_splitting (m n : Nat) (s : List Char)
    (hm : 0 < m) (hn : 0 < n) (hne : s ≠ [])
    (hh : s.head? ≠ some '|') (hl : s.getLast? ≠ some '|') :
    rowCells (List.replicate m '|' ++ s ++ List.replicate n '|') =
      (splitPipe s).map pyStrip := by
  unfold rowCells
  rw [pyStripPipes_sandwich m n s hne hh hl]

/-- Witness for C3 (amended): two leading and three trailing pipes around
the same core give the same cells as one pipe on each side. -/
theorem tableParser_cell_splitting_witness :
    rowCells ("||a | b|||".toList) = [("a".toList), ("b".toList)] ∧
    rowCells ("|a | b|".toList) = [("a".toList), ("b".toList)] :=
  ⟨by
    have h := tableParser_cell_splitting 2 3 ("a | b".toList)
      (by decide) (by decide) (by decide) (by decide) (by decide)
    have he : ("||a | b|||".toList) =
        List.replicate 2 '|' ++ ("a | b".toList) ++ List.replicate 3 '|' := by decide
    rw [he, h]
    decide,
   by decide⟩

/-- C3 counterexample: the claim predicts that a qualifying line ending in
two pipes yields an empty boundary cell for the extra delimiter, but the
parser strips all boundary pipes and yields no such cell. -/
theorem tableParser_cell_splitting_cx :
    claimCells ("|a||".toList) = [("a".toList), []] ∧
    rowCells ("|a||".toList) = [("a".toList)] ∧
    rowCells ("|a||".toList) ≠ claimCells ("|a||".toList) := by
  decide

/-! ### C2: round trip through the renderer -/

theorem mem_joinSep (sep : List Char) :
    ∀ (ls : List (List Char)) (c : Char), c ∈ joinSep sep ls →
      c ∈ sep ∨ ∃ l ∈ ls, c ∈ l := by
  intro ls
  induction ls with
  | nil => intro c hc; cases hc
  | cons l rest ih =>
    intro c hc
    cases rest with
    | nil =>
      right
      exact ⟨l, by simp, hc⟩
    | cons l₂ rest₂ =>
      rw [show joinSep sep (l :: l₂ :: rest₂) = l ++ sep ++ joinSep sep (l₂ :: rest₂)
          from rfl] at hc
      simp only [List.mem_append] at hc
      rcases hc with (hc | hc) | hc
      · right; exact ⟨l, by simp, hc⟩
      · left; exact hc
      · rcases ih c hc with h | ⟨l₃, hl₃, hcl₃⟩
        · left; exact h
        · right; exact ⟨l₃, by simp [hl₃], hcl₃⟩

theorem cleanCell_parts (c : List Char) (h : cleanCell c = true) :
    (∀ ch, c.head? = some ch → pyIsSpace ch = false) ∧
    (∀ ch, c.getLast? = some ch → pyIsSpace ch = false) ∧
    (∀ ch ∈ c, ¬ ch = '|' ∧ isLineBreak ch = false) := by
  rw [cleanCell, Bool.and_eq_true, Bool.and_eq_true] at h
  obtain ⟨⟨h1, h2⟩, h3⟩ := h
  refine ⟨?_, ?_, ?_⟩
  · intro ch e; rw [e] at h1; simpa using h1
  · intro ch e; rw [e] at h2; simpa using h2
  · intro ch hch
    have hb := List.all_eq_true.mp h3 ch hch
    rw [Bool.and_eq_true] at hb
    obtain ⟨ha, hb⟩ := hb
    exact ⟨of_decide_eq_true ha, by simpa using hb⟩

theorem renderRow_head (cs : List (List Char)) : (renderRow cs).head? = some '|' := rfl

theorem renderRow_ne_nil (cs : List (List Char)) : renderRow cs ≠ [] := by
  intro h
  have := renderRow_head cs
  rw [h] at this
  cases this

theorem renderRow_getLast (cs : List (List Char)) :
    (renderRow cs).getLast? = some '|' := by
  unfold renderRow
  rw [List.getLast?_append_of_ne_nil _ (show ((" |").toList) ≠ [] from by decide)]
  decide

theorem mem_renderRow (cs : List (List Char)) (c : Char) (h : c ∈ renderRow cs) :
    c = '|' ∨ c = ' ' ∨ ∃ cell ∈ cs, c ∈ cell := by
  unfold renderRow at h
  simp only [List.mem_append] at h
  rcases h with (h | h) | h
  · simp at h; tauto
  · rcases mem_joinSep _ cs c h with hs | hs
    · simp at hs; tauto
    · right; right; exact hs
  · simp at h; tauto

theorem noLB_renderRow (cs : List (List Char))
    (h : ∀ cell ∈ cs, ∀ ch ∈ cell, isLineBreak ch = false) :
    ∀ ch ∈ renderRow cs, isLineBreak ch = false := by
  intro ch hch
  rcases mem_renderRow cs ch hch with e | e | ⟨cell, hcell, hc⟩
  · rw [e]; decide
  · rw [e]; decide
  · exact h cell hcell ch hc

theorem pyStrip_renderRow (cs : List (List Char)) :
    pyStrip (renderRow cs) = renderRow cs := by
  apply pyStrip_eq_self
  · intro ch e
    rw [renderRow_head cs] at e
    injection e with e
    rw [← e]; decide
  · intro ch e
    rw [renderRow_getLast cs] at e
    injection e with e
    rw [← e]; decide

theorem pyStripPipes_renderRow (cs : List (List Char)) :
    pyStripPipes (renderRow cs) =
      ' ' :: (joinSep ((" | ").toList) cs ++ [' ']) := by
  unfold pyStripPipes renderRow
  rw [show ((("| ").toList) ++ joinSep ((" | ").toList) cs ++ ((" |").toList)) =
      '|' :: (' ' :: (joinSep ((" | ").toList) cs ++ [' ', '|'])) from by simp]
  rw [List.dropWhile_cons, if_pos (by decide),
      dropWhile_cons_false _ ' ' _ (by decide)]
  unfold dropTrailing
  rw [show (' ' :: (joinSep ((" | ").toList) cs ++ [' ', '|'])) =
      ((' ' :: joinSep ((" | ").toList) cs ++ [' ']) ++ ['|']) from by simp]
  rw [List.reverse_append]
  rw [show (['|'].reverse ++ (' ' :: joinSep ((" | ").toList) cs ++ [' ']).reverse) =
      ('|' :: (' ' :: joinSep ((" | ").toList) cs ++ [' ']).reverse) from by simp]
  rw [List.dropWhile_cons, if_pos (by decide)]
  rw [show (' ' :: joinSep ((" | ").toList) cs ++ [' ']).reverse =
      ' ' :: (' ' :: joinSep ((" | ").toList) cs).reverse from by simp]
  rw [dropWhile_cons_false _ ' ' _ (by decide)]
  rw [show (' ' :: (' ' :: joinSep ((" | ").toList) cs).reverse).reverse =
      ' ' :: (joinSep ((" | ").toList) cs ++ [' ']) from by simp]

theorem splitPipe_padded :
    ∀ (cs : List (List Char)), cs ≠ [] →
      (∀ cell ∈ cs, ∀ c ∈ cell, ¬ c = '|') →
      splitPipe (' ' :: (joinSep ((" | ").toList) cs ++ [' '])) =
        cs.map (fun c => ' ' :: (c ++ [' '])) := by
  intro cs
  induction cs with
  | nil => intro h _; exact absurd rfl h
  | cons c rest ih =>
    intro _ hpipe
    cases rest with
    | nil =>
      rw [show joinSep ((" | ").toList) [c] = c from rfl]
      rw [splitPipe_no_pipe _ ?_]
      · simp
      · intro x hx
        simp at hx
        rcases hx with hx | hx | hx
        · rw [hx]; decide
        · exact hpipe c (by simp) x hx
        · rw [hx]; decide
    | cons c₂ rest₂ =>
      have hsplit : (' ' :: (joinSep ((" | ").toList) (c :: c₂ :: rest₂) ++ [' '])) =
          ((' ' :: (c ++ [' '])) ++
            ('|' :: (' ' :: (joinSep ((" | ").toList) (c₂ :: rest₂) ++ [' '])))) := by
        rw [show joinSep ((" | ").toList) (c :: c₂ :: rest₂) =
            c ++ ((" | ").toList) ++ joinSep ((" | ").toList) (c₂ :: rest₂) from rfl]
        simp
      rw [hsplit, splitPipe_append _ _ ?_]
      · rw [ih (by simp) (fun cell hc x hx => hpipe cell (by simp [hc]) x hx)]
        simp
      · intro x hx
        simp at hx
        rcases hx with hx | hx | hx
        · rw [hx]; decide
        · exact hpipe c (by simp) x hx
        · rw [hx]; decide

theorem rowCells_renderRow (cs : List (List Char)) (hne : cs ≠ [])
    (hclean : ∀ cell ∈ cs, cleanCell cell = true) :
    rowCells (renderRow cs) = cs := by
  unfold rowCells
  rw [pyStripPipes_renderRow cs]
  rw [splitPipe_padded cs hne
      (fun cell hc x hx => (cleanCell_parts cell (hclean cell hc)).2.2 x hx |>.1)]
  rw [List.map_map]
  have : ∀ a ∈ cs, (pyStrip ∘ fun c => ' ' :: (c ++ [' '])) a = id a := by
    intro a ha
    have hp := cleanCell_parts a (hclean a ha)
    simpa using pyStrip_pad a hp.1 hp.2.1
  rw [List.map_congr_left this, List.map_id]

theorem filterMap_eq_map_of_all {α β : Type} (f : α → Option β) (g : α → β) :
    ∀ (l : List α), (∀ a ∈ l, f a = some (g a)) → l.filterMap f = l.map g := by
  intro l
  induction l with
  | nil => intro _; rfl
  | cons a rest ih =>
    intro h
    rw [List.filterMap_cons, h a (by simp), ih (fun x hx => h x (by simp [hx])),
        List.map_cons]

theorem qualifyingLines_renderTable (H : List (List Char)) (rows : List (List (List Char)))
    (hH : ∀ c ∈ H, cleanCell c = true)
    (hcells : ∀ r ∈ rows, ∀ c ∈ r, cleanCell c = true) :
    qualifyingLines (renderTable H rows) =
      renderRow H :: sepRow H :: rows.map renderRow := by
  unfold qualifyingLines renderTable
  rw [pySplitlines_joinSep _ (by simp) ?lines]
  case lines =>
    intro l hl
    simp only [List.cons_append, List.nil_append, List.mem_cons, List.mem_map] at hl
    rcases hl with hl | hl | ⟨r, hr, hlr⟩
    · subst hl
      exact ⟨renderRow_ne_nil H, noLB_renderRow H
        (fun cell hc ch hch => (cleanCell_parts cell (hH cell hc)).2.2 ch hch |>.2)⟩
    · subst hl
      refine ⟨renderRow_ne_nil _, noLB_renderRow _ ?_⟩
      intro cell hc ch hch
      obtain ⟨a, _, e⟩ := List.mem_map.mp hc
      rw [← e] at hch
      have hd : ch = '-' := by simpa using hch
      rw [hd]; decide
    · subst hlr
      exact ⟨renderRow_ne_nil r, noLB_renderRow r
        (fun cell hc ch hch => (cleanCell_parts cell (hcells r hr cell hc)).2.2 ch hch |>.2)⟩
  have hid : (((renderRow H :: sepRow H :: rows.map renderRow) : List (List Char)).map pyStrip)
      = renderRow H :: sepRow H :: rows.map renderRow := by
    have hall : ∀ a ∈ (renderRow H :: sepRow H :: rows.map renderRow), pyStrip a = id a := by
      intro a ha
      simp only [List.mem_cons, List.mem_map] at ha
      rcases ha with ha | ha | ⟨r, _, hra⟩
      · subst ha; exact pyStrip_renderRow H
      · subst ha; exact pyStrip_renderRow _
      · subst hra; exact pyStrip_renderRow r
    rw [List.map_congr_left hall, List.map_id]
  rw [show (List.cons (renderRow H) [sepRow H] ++ rows.map renderRow)
      = renderRow H :: sepRow H :: rows.map renderRow from by simp]
  rw [hid]
  apply List.filter_eq_self.mpr
  intro a ha
  simp only [List.mem_cons, List.mem_map] at ha
  rcases ha with ha | ha | ⟨r, _, hra⟩
  · subst ha; simp [renderRow_head]
  · subst ha; simp [sepRow, renderRow_head]
  · subst hra; simp [renderRow_head]

/-- C2: for a non-empty header of distinct clean column names and body
rows that each have exactly the header width and clean cells, parsing the
rendered pipe table yields exactly one record per row, in input order,
each record pairing the header names with the original cells. -/
theorem tableParser_round_trip (H : List (List Char)) (rows : List (List (List Char)))
    (hne : H ≠ []) (hnd : H.Nodup)
    (hH : ∀ c ∈ H, cleanCell c = true)
    (hlen : ∀ r ∈ rows, r.length = H.length)
    (hcells : ∀ r ∈ rows, ∀ c ∈ r, cleanCell c = true) :
    parse_markdown_table (renderTable H rows) = rows.map (fun r => H.zip r) ∧
    ∀ r ∈ rows, (H.zip r).map Prod.fst = H ∧ (H.zip r).map Prod.snd = r := by
  have hq := qualifyingLines_renderTable H rows hH hcells
  have hHrow : rowCells (renderRow H) = H := rowCells_renderRow H hne hH
  have hHpos : 0 < H.length := List.length_pos.mpr hne
  constructor
  · rw [parse_markdown_table_eq _ (renderRow H) (sepRow H) (rows.map renderRow) hq]
    rw [List.filterMap_map]
    apply filterMap_eq_map_of_all
    intro r hr
    have hrne : r ≠ [] := by
      intro e
      have := hlen r hr
      rw [e] at this
      simp at this
      omega
    have hrrow : rowCells (renderRow r) = r :=
      rowCells_renderRow r hrne (hcells r hr)
    have hcond : ¬ ((rowCells (renderRow r)).length ≠ (rowCells (renderRow H)).length) := by
      rw [hrrow, hHrow]
      simpa using hlen r hr
    simp only [Function.comp_apply]
    rw [if_neg hcond, hrrow, hHrow, dictZip_eq_zip H r hnd]
  · intro r hr
    constructor
    · exact List.map_fst_zip H r (le_of_eq (hlen r hr).symm)
    · exact List.map_snd_zip H r (le_of_eq (hlen r hr))

/-- Witness for C2: a two-column header with two rows, one containing an
empty cell, round-trips exactly. -/
theorem tableParser_round_trip_witness :
    parse_markdown_table (renderTable [("A".toList), ("B".toList)]
        [[("x".toList), []], [[], ("y".toList)]]) =
      [[(("A".toList), ("x".toList)), (("B".toList), [])],
       [(("A".toList), []), (("B".toList), ("y".toList))]] := by
  have h := (tableParser_round_trip [("A".toList), ("B".toList)]
      [[("x".toList), []], [[], ("y".toList)]]
      (by decide) (by decide) (by decide) (by decide) (by decide)).1
  rw [h]
  decide

/-! ### C5: ListParser characterization -/

theorem parse_numbered_list_eq (text : List Char) :
    parse_numbered_list text = (pySplitlines text).filterMap numberedLabel := by
  unfold parse_numbered_list
  have haux : ∀ (ls : List (List Char)) (acc : List (List Char)),
      ls.foldl (fun items line => match matchNumbered line with
        | some g => items ++ [pyStrip g]
        | none => items) acc
      = acc ++ ls.filterMap numberedLabel := by
    intro ls
    induction ls with
    | nil => intro acc; simp
    | cons l rest ih =>
      intro acc
      rw [List.foldl_cons, List.filterMap_cons]
      cases hm : matchNumbered l with
      | none => simp [hm, numberedLabel, ih]
      | some g => simp [hm, numberedLabel, ih]
  simpa using haux (pySplitlines text) []

theorem pyIsSpace_elim (c : Char) (h : pyIsSpace c = true) :
    c = ' ' ∨ c = '\t' ∨ c = '\n' ∨ c = '\r' ∨ c = '\x0b' ∨ c = '\x0c' := by
  simp [pyIsSpace] at h
  tauto

theorem isDigit_not_space (c : Char) (h : c.isDigit = true) : pyIsSpace c = false := by
  cases hs : pyIsSpace c
  · rfl
  · rcases pyIsSpace_elim c hs with e|e|e|e|e|e <;> rw [e] at h <;> exact absurd h (by decide)

theorem space_not_digit (c : Char) (h : pyIsSpace c = true) : Char.isDigit c = false := by
  rcases pyIsSpace_elim c h with e|e|e|e|e|e <;> rw [e] <;> decide

theorem space_ne_dot (c : Char) (h : pyIsSpace c = true) : ¬ c = '.' := by
  intro e; rw [e] at h; exact absurd h (by decide)

theorem takeWhile_all {α : Type} (p : α → Bool) (l : List α)
    (h : ∀ a ∈ l, p a = true) : l.takeWhile p = l := by
  have := takeWhile_append_all p l [] h
  simpa using this

theorem numberedLabel_sound (line g : List Char) (h : matchNumbered line = some g) :
    NumberedLineSpec line (pyStrip g) := by
  simp only [matchNumbered] at h
  set w0 := line.takeWhile pyIsSpace with hw0def
  set r1 := line.dropWhile pyIsSpace with hr1def
  set d := r1.takeWhile Char.isDigit with hddef
  set r2 := r1.dropWhile Char.isDigit with hr2def
  set r3 := if r2.head? = some '.' then r2.tail else r2 with hr3def
  set w := r3.takeWhile pyIsSpace with hwdef
  set t := r3.dropWhile pyIsSpace with htdef
  have hline : line = w0 ++ r1 := (List.takeWhile_append_dropWhile pyIsSpace line).symm
  have hr1 : r1 = d ++ r2 := (List.takeWhile_append_dropWhile Char.isDigit r1).symm
  have hr3 : r3 = w ++ t := (List.takeWhile_append_dropWhile pyIsSpace r3).symm
  have hw0s : ∀ c ∈ w0, pyIsSpace c = true := fun c hc => List.mem_takeWhile_imp hc
  have hds : ∀ c ∈ d, Char.isDigit c = true := fun c hc => List.mem_takeWhile_imp hc
  have hws : ∀ c ∈ w, pyIsSpace c = true := fun c hc => List.mem_takeWhile_imp hc
  have hdot : ∃ dotL, (dotL = [] ∨ dotL = ['.']) ∧ r2 = dotL ++ r3 := by
    by_cases hc : r2.head? = some '.'
    · refine ⟨['.'], Or.inr rfl, ?_⟩
      cases hr2 : r2 with
      | nil => rw [hr2] at hc; cases hc
      | cons c tl =>
        rw [hr2] at hc
        injection hc with hc
        rw [hr3def, if_pos (show r2.head? = some '.' from by rw [hr2]; simpa using hc)]
        rw [hr2, hc]
        rfl
    · exact ⟨[], Or.inl rfl, by rw [hr3def, if_neg hc]; rfl⟩
  obtain ⟨dotL, hdotL, hr2decomp⟩ := hdot
  split_ifs at h with h1 h2 h3 h4
  · -- content after the whitespace run
    have hg : g = t := by injection h with h; exact h.symm
    rw [hg]
    have hdne : d ≠ [] := by
      intro e; rw [e] at h1; exact h1 rfl
    have hwne : w ≠ [] := by
      intro e; rw [e] at h2; exact h2 rfl
    have htne : t ≠ [] := by
      simp only [Bool.not_eq_true'] at h3
      intro e; rw [e] at h3; cases h3
    refine ⟨w0, d, dotL, w, t, ?_, hw0s, hdne, hds, hdotL, hwne, hws, htne, rfl⟩
    rw [hline, hr1, hr2decomp, hr3]
    simp [List.append_assoc]
  · -- line ends in a whitespace run of length at least two
    have hg : g = [w.getLast?.getD ' '] := by injection h with h; exact h.symm
    rw [hg]
    have hdne : d ≠ [] := by
      intro e; rw [e] at h1; exact h1 rfl
    have hwne : w ≠ [] := by
      intro e; rw [e] at h2; exact h2 rfl
    have hteq : t = [] := by
      simp only [Bool.not_eq_true'] at h3
      exact List.isEmpty_iff.mp (by simpa using h3)
    have hlast : w.getLast? = some (w.getLast hwne) := List.getLast?_eq_getLast w hwne
    have hgd : w.getLast?.getD ' ' = w.getLast hwne := by rw [hlast]; rfl
    refine ⟨w0, d, dotL, w.dropLast, [w.getLast hwne], ?_, hw0s, hdne, hds, hdotL,
      ?_, ?_, by simp, ?_⟩
    · rw [hline, hr1, hr2decomp, hr3, hteq]
      simp only [List.append_nil, List.append_assoc]
      rw [List.dropLast_append_getLast hwne]
    · intro e
      have := List.length_dropLast w
      rw [e] at this
      simp at this
      omega
    · intro c hc
      exact hws c (List.mem_of_mem_dropLast hc)
    · rw [hgd]

theorem isEmpty_false_of_ne {α : Type} (l : List α) (h : l ≠ []) : l.isEmpty = false := by
  cases l with
  | nil => exact absurd rfl h
  | cons a b => rfl

theorem pyStrip_singleton_space (c : Char) (h : pyIsSpace c = true) : pyStrip [c] = [] :=
  pyStrip_all_space [c] (by intro x hx; simp at hx; rw [hx]; exact h)

theorem numberedLabel_complete (line v : List Char) (hs : NumberedLineSpec line v) :
    numberedLabel line = some v := by
  obtain ⟨w, d, dot, sp, lab, hline, hws, hdne, hdig, hdot, hspne, hsps, hlabne, hv⟩ := hs
  obtain ⟨d0, d', rfl⟩ : ∃ d0 d', d = d0 :: d' := by
    cases d with
    | nil => exact absurd rfl hdne
    | cons a b => exact ⟨a, b, rfl⟩
  obtain ⟨s0, sp', rfl⟩ : ∃ s0 sp', sp = s0 :: sp' := by
    cases sp with
    | nil => exact absurd rfl hspne
    | cons a b => exact ⟨a, b, rfl⟩
  have hd0 : Char.isDigit d0 = true := hdig d0 (by simp)
  have hs0 : pyIsSpace s0 = true := hsps s0 (by simp)
  have hline' : line = w ++ ((d0 :: d') ++ (dot ++ (s0 :: (sp' ++ lab)))) := by
    rw [hline]; simp [List.append_assoc]
  have hE1 : line.dropWhile pyIsSpace = (d0 :: d') ++ (dot ++ (s0 :: (sp' ++ lab))) := by
    rw [hline', dropWhile_append_all pyIsSpace w _ hws]
    exact dropWhile_cons_false pyIsSpace d0 _ (isDigit_not_space d0 hd0)
  have hrest_take : (dot ++ (s0 :: (sp' ++ lab))).takeWhile Char.isDigit = [] := by
    rcases hdot with h | h
    · subst h
      exact takeWhile_cons_false Char.isDigit s0 _ (space_not_digit s0 hs0)
    · subst h
      exact takeWhile_cons_false Char.isDigit '.' _ (by decide)
  have hrest_drop : (dot ++ (s0 :: (sp' ++ lab))).dropWhile Char.isDigit =
      dot ++ (s0 :: (sp' ++ lab)) := by
    rcases hdot with h | h
    · subst h
      exact dropWhile_cons_false Char.isDigit s0 _ (space_not_digit s0 hs0)
    · subst h
      exact dropWhile_cons_false Char.isDigit '.' _ (by decide)
  have hE2t : (line.dropWhile pyIsSpace).takeWhile Char.isDigit = d0 :: d' := by
    rw [hE1, takeWhile_append_all Char.isDigit (d0 :: d') _ hdig, hrest_take,
        List.append_nil]
  have hE2d : (line.dropWhile pyIsSpace).dropWhile Char.isDigit =
      dot ++ (s0 :: (sp' ++ lab)) := by
    rw [hE1, dropWhile_append_all Char.isDigit (d0 :: d') _ hdig, hrest_drop]
  have hE4 : (if (dot ++ (s0 :: (sp' ++ lab))).head? = some '.'
        then (dot ++ (s0 :: (sp' ++ lab))).tail
        else dot ++ (s0 :: (sp' ++ lab))) = (s0 :: sp') ++ lab := by
    rcases hdot with h | h
    · subst h
      rw [if_neg]
      · rfl
      · intro e
        simp at e
        exact space_ne_dot s0 hs0 e
    · subst h
      rw [if_pos (show ((['.'] : List Char) ++ (s0 :: (sp' ++ lab))).head? = some '.' from rfl)]
      rfl
  have hE5t : ((s0 :: sp') ++ lab).takeWhile pyIsSpace =
      (s0 :: sp') ++ lab.takeWhile pyIsSpace :=
    takeWhile_append_all pyIsSpace (s0 :: sp') lab hsps
  have hE5d : ((s0 :: sp') ++ lab).dropWhile pyIsSpace = lab.dropWhile pyIsSpace :=
    dropWhile_append_all pyIsSpace (s0 :: sp') lab hsps
  unfold numberedLabel
  simp only [matchNumbered]
  rw [hE2t, hE2d, hE4, hE5t, hE5d]
  rw [if_neg (show ¬ ((d0 :: d').isEmpty = true) from by simp)]
  rw [if_neg (show ¬ (((s0 :: sp') ++ lab.takeWhile pyIsSpace).isEmpty = true) from by simp)]
  by_cases hcase : lab.dropWhile pyIsSpace = []
  · have hlabws : ∀ c ∈ lab, pyIsSpace c = true := by
      intro c hc
      exact List.dropWhile_eq_nil_iff.mp hcase c hc
    have htakelab : lab.takeWhile pyIsSpace = lab := takeWhile_all pyIsSpace lab hlabws
    rw [hcase, htakelab]
    rw [if_neg (show ¬ ((!(List.isEmpty ([] : List Char))) = true) from by decide)]
    rw [if_pos (show 2 ≤ ((s0 :: sp') ++ lab).length from by
      have := List.length_pos.mpr hlabne
      simp
      omega)]
    have hgl : ((s0 :: sp') ++ lab).getLast? = some (lab.getLast hlabne) := by
      rw [List.getLast?_append_of_ne_nil _ hlabne]
      exact List.getLast?_eq_getLast lab hlabne
    rw [hgl]
    simp only [Option.getD_some, Option.map_some']
    rw [pyStrip_singleton_space _ (hlabws _ (List.getLast_mem hlabne))]
    rw [hv, pyStrip_all_space lab hlabws]
  · rw [if_pos (show (!(lab.dropWhile pyIsSpace).isEmpty) = true from by
      rw [isEmpty_false_of_ne _ hcase]; rfl)]
    simp only [Option.map_some']
    rw [pyStrip_dropWhile_space, hv]

/-- C5 (amended): the output of the list parser is exactly the ordered
sequence of trimmed labels of the lines matching the pattern with an
allowance for optional leading whitespace, namely
LEADING-WHITESPACE? INDEX DOT? WHITESPACE LABEL with a non-empty index of
digits and a non-empty remainder; all other lines are ignored, duplicates
are preserved, the given four-line input yields its three labels, and
empty input yields an empty sequence. -/
theorem listParser_characterization :
    (∀ text, parse_numbered_list text = (pySplitlines text).filterMap numberedLabel) ∧
    (∀ line v, numberedLabel line = some v ↔ NumberedLineSpec line v) ∧
    parse_numbered_list (("1. Alice\n2 Bob\nNotANumber\n3. Carol").toList) =
      [("Alice".toList), ("Bob".toList), ("Carol".toList)] ∧
    parse_numbered_list [] = [] := by
  refine ⟨parse_numbered_list_eq, ?_, by decide, by decide⟩
  intro line v
  constructor
  · intro h
    obtain ⟨g, hg, hv⟩ := Option.map_eq_some'.mp h
    rw [← hv]
    exact numberedLabel_sound line g hg
  · exact numberedLabel_complete line v

/-- Witness for C5 (amended): the line with two leading blanks, index 7,
no dot, and label text matches and yields the trimmed label. -/
theorem listParser_characterization_witness :
    numberedLabel (("  7 Bob ").toList) = some ("Bob".toList) :=
  (listParser_characterization.2.1 (("  7 Bob ").toList) ("Bob".toList)).mpr
    ⟨("  ".toList), ("7".toList), [], (" ".toList), ("Bob ".toList),
      by decide, by decide, by decide, by decide, by decide,
      by decide, by decide, by decide, by decide⟩

/-- C5 counterexample: a line with leading whitespace is accepted by the
parser, while the pattern of the claim, which must start with the index,
rejects it, so the claimed output for this input is empty. -/
theorem listParser_claim_cx :
    parse_numbered_list (("  1. Alice").toList) = [("Alice".toList)] ∧
    claimLabels (("  1. Alice").toList) = [] ∧
    parse_numbered_list (("  1. Alice").toList) ≠ claimLabels (("  1. Alice").toList) := by
  decide

/-! ### C7: sanitization and artifact naming -/

theorem reSubAux_good_run (bad : Char → Bool) :
    ∀ (a b : List Char), (∀ c ∈ a, bad c = false) →
      reSubAux bad (a ++ b) false = a ++ reSubAux bad b false := by
  intro a
  induction a with
  | nil => intro b _; rfl
  | cons c cs ih =>
    intro b h
    have hc : bad c = false := h c (by simp)
    have step : reSubAux bad ((c :: cs) ++ b) false = c :: reSubAux bad (cs ++ b) false := by
      simp [reSubAux, hc]
    rw [step, ih b (fun x hx => h x (by simp [hx]))]
    rfl

theorem reSubAux_bad_run (bad : Char → Bool) :
    ∀ (r b : List Char), (∀ c ∈ r, bad c = true) →
      reSubAux bad (r ++ b) true = reSubAux bad b true := by
  intro r
  induction r with
  | nil => intro b _; rfl
  | cons c cs ih =>
    intro b h
    have hc : bad c = true := h c (by simp)
    have step : reSubAux bad ((c :: cs) ++ b) true = reSubAux bad (cs ++ b) true := by
      simp [reSubAux, hc]
    rw [step]
    exact ih b (fun x hx => h x (by simp [hx]))

theorem reSubAux_true_eq_false (bad : Char → Bool) (b : List Char)
    (h : ∀ c, b.head? = some c → bad c = false) :
    reSubAux bad b true = reSubAux bad b false := by
  cases b with
  | nil => rfl
  | cons c cs =>
    have hc : bad c = false := h c rfl
    simp [reSubAux, hc]

theorem mem_reSubAux (bad : Char → Bool) :
    ∀ (l : List Char) (f : Bool) (c : Char),
      c ∈ reSubAux bad l f → c = '_' ∨ bad c = false := by
  intro l
  induction l with
  | nil => intro f c hc; cases hc
  | cons a rest ih =>
    intro f c hc
    by_cases ha : bad a = true
    · cases f with
      | true =>
        simp only [reSubAux, ha, if_true] at hc
        exact ih true c hc
      | false =>
        simp only [reSubAux, ha, if_true] at hc
        rcases List.mem_cons.mp hc with h | h
        · left; exact h
        · exact ih true c h
    · have ha₂ : bad a = false := by simpa using ha
      simp only [reSubAux, ha₂, Bool.false_eq_true, if_false] at hc
      rcases List.mem_cons.mp hc with h | h
      · right; rw [h]; exact ha₂
      · exact ih false c h

/-- C7 (amended): the sanitized label preserves word characters, including
underscores, and collapses every maximal run of characters that are
neither alphanumeric nor hyphen nor underscore to a single underscore; for
an output location that is non-empty and has no trailing separator, the
artifact path is the location, a separator, the sanitized label, and the
fixed suffix. -/
theorem artifact_naming :
    (∀ (a b : List Char), (∀ c ∈ a, nonWordNonHyphen c = false) →
        sanitize (a ++ b) = a ++ sanitize b) ∧
    (∀ (r b : List Char), r ≠ [] → (∀ c ∈ r, nonWordNonHyphen c = true) →
        (∀ c, b.head? = some c → nonWordNonHyphen c = false) →
        sanitize (r ++ b) = '_' :: sanitize b) ∧
    nonWordNonHyphen '_' = false ∧
    (∀ (dir p : List Char), dir ≠ [] → dir.getLast? ≠ some '/' →
        osPathJoin dir (sanitize p ++ (("_bpmn.csv").toList)) =
          dir ++ '/' :: (sanitize p ++ (("_bpmn.csv").toList))) := by
  refine ⟨?_, ?_, by decide, ?_⟩
  · intro a b h
    exact reSubAux_good_run nonWordNonHyphen a b h
  · intro r b hne hbad hgood
    cases r with
    | nil => exact absurd rfl hne
    | cons c cs =>
      have hc : nonWordNonHyphen c = true := hbad c (by simp)
      unfold sanitize reSub
      have step : reSubAux nonWordNonHyphen ((c :: cs) ++ b) false =
          '_' :: reSubAux nonWordNonHyphen (cs ++ b) true := by
        simp [reSubAux, hc]
      rw [step]
      rw [reSubAux_bad_run nonWordNonHyphen cs b (fun x hx => hbad x (by simp [hx]))]
      rw [reSubAux_true_eq_false nonWordNonHyphen b hgood]
  · intro dir p hdir hlast
    have hhead : ¬ ((sanitize p ++ (("_bpmn.csv").toList)).head? = some '/') := by
      cases hsan : sanitize p with
      | nil => decide
      | cons c rest =>
        intro e
        simp at e
        have hc : c ∈ reSubAux nonWordNonHyphen p false := by
          rw [show reSubAux nonWordNonHyphen p false = sanitize p from rfl, hsan]
          simp
        rcases mem_reSubAux nonWordNonHyphen p false c hc with h | h
        · rw [e] at h; cases h
        · rw [e] at h
          exact absurd h (by decide)
    unfold osPathJoin
    rw [if_neg (show ¬ (dir.isEmpty = true) from by simp [List.isEmpty_iff, hdir])]
    rw [if_neg hhead, if_neg hlast]

/-- Witness for C7 (amended) at concrete inputs: a word-character run is
kept, a run of two pluses collapses to one underscore, and the artifact
path of the label with a space is assembled with a single separator. -/
theorem artifact_naming_witness :
    sanitize (("ab").toList ++ ("+c").toList) = ("ab").toList ++ sanitize (("+c").toList) ∧
    sanitize (("++").toList ++ ("c").toList) = '_' :: sanitize (("c").toList) ∧
    osPathJoin (("out").toList) (sanitize (("a b").toList) ++ (("_bpmn.csv").toList)) =
      ("out").toList ++ '/' :: (sanitize (("a b").toList) ++ (("_bpmn.csv").toList)) :=
  ⟨artifact_naming.1 _ _ (by decide),
   artifact_naming.2.1 _ _ (by decide) (by decide) (by decide),
   artifact_naming.2.2.2 _ _ (by decide) (by decide)⟩

/-- C7 counterexample: the claim collapses underscores too, but the
substitution class excludes word characters and underscores are word
characters, so a label with a double underscore is left unchanged. -/
theorem artifact_naming_cx :
    sanitize (("a__b").toList) = ("a__b").toList ∧
    claimSanitize (("a__b").toList) = ("a_b").toList ∧
    sanitize (("a__b").toList) ≠ claimSanitize (("a__b").toList) := by
  decide

/-! ### C6: message-flow prompt sends the full tables -/

theorem intercalate_eq_joinSep (sep : List Char) :
    ∀ (ls : List (List Char)), List.intercalate sep ls = joinSep sep ls := by
  intro ls
  induction ls with
  | nil => rfl
  | cons l rest ih =>
    cases rest with
    | nil => simp [List.intercalate, List.intersperse, joinSep]
    | cons l₂ t =>
      rw [show joinSep sep (l :: l₂ :: t) = l ++ sep ++ joinSep sep (l₂ :: t) from rfl,
          ← ih]
      simp [List.intercalate, List.intersperse]

theorem joinSep_infix (sep : List Char) :
    ∀ (ls : List (List Char)) (a : List Char), a ∈ ls →
      ∃ s t, s ++ a ++ t = joinSep sep ls := by
  intro ls
  induction ls with
  | nil => intro a ha; cases ha
  | cons l rest ih =>
    intro a ha
    cases rest with
    | nil =>
      rcases List.mem_cons.mp ha with h | h
      · subst h
        exact ⟨[], [], by simp [joinSep]⟩
      · cases h
    | cons l₂ t =>
      rcases List.mem_cons.mp ha with h | h
      · subst h
        refine ⟨[], sep ++ joinSep sep (l₂ :: t), ?_⟩
        rw [show joinSep sep (a :: l₂ :: t) = a ++ sep ++ joinSep sep (l₂ :: t) from rfl]
        simp [List.append_assoc]
      · obtain ⟨s, u, hsu⟩ := ih a h
        refine ⟨l ++ sep ++ s, u, ?_⟩
        rw [show joinSep sep (l :: l₂ :: t) = l ++ sep ++ joinSep sep (l₂ :: t) from rfl,
            ← hsu]
        simp [List.append_assoc]

/-- C6: for a non-empty retained map the returned conversation is the
fixed system message followed by one user message that joins, in map
order, the labeled sections each holding that participant raw table text
in full; every retained table text occurs verbatim inside the user
content. The builder is a pure function of its input. -/
theorem messageFlowPrompt_full_tables (tables : List (List Char × List Char))
    (hne : tables ≠ []) :
    get_message_flows_prompt tables =
      [⟨("system".toList), mfSystem⟩,
       ⟨("user".toList),
        List.intercalate (("\n\n").toList) (tables.map (fun pt => mfSection pt.1 pt.2))⟩] ∧
    (∀ pt ∈ tables, ∃ s t, s ++ pt.2 ++ t =
      List.intercalate (("\n\n").toList) (tables.map (fun pt => mfSection pt.1 pt.2))) := by
  constructor
  · rfl
  · intro pt hpt
    rw [intercalate_eq_joinSep]
    have hmem : ∃ s t, s ++ mfSection pt.1 pt.2 ++ t =
        joinSep (("\n\n").toList) (tables.map (fun pt => mfSection pt.1 pt.2)) :=
      joinSep_infix _ _ _ (List.mem_map.mpr ⟨pt, hpt, rfl⟩)
    obtain ⟨s, t, hst⟩ := hmem
    refine ⟨s ++ ("Tasks for ".toList) ++ pt.1 ++ (":\n\n".toList),
            ("\n".toList) ++ t, ?_⟩
    rw [← hst]
    simp [mfSection, List.append_assoc]

set_option maxRecDepth 100000 in
/-- Witness for C6 at a one-participant map: the conversation is the system
message plus one user message holding the labeled section, and the raw
table text occurs verbatim inside it. -/
theorem messageFlowPrompt_full_tables_witness :
    get_message_flows_prompt [((("A").toList), (("TBL").toList))] =
      [⟨("system".toList), mfSystem⟩,
       ⟨("user".toList), (("Tasks for A:\n\nTBL\n").toList)⟩] ∧
    (∃ s t, s ++ (("TBL").toList) ++ t = (("Tasks for A:\n\nTBL\n").toList)) := by
  have h := messageFlowPrompt_full_tables [((("A").toList), (("TBL").toList))] (by decide)
  constructor
  · rw [h.1]
    decide
  · obtain ⟨s, t, hst⟩ := h.2 ((("A").toList), (("TBL").toList)) (by simp)
    refine ⟨s, t, ?_⟩
    rw [hst]
    decide

/-! ### Orchestrator lemmas -/

theorem stage2Step_remote (oracle : Oracle) (sop dir : List Char) (acc : LoopAcc)
    (p : List Char) (h : oracle acc.k = Except.error ()) :
    stage2Step oracle sop dir acc p =
      Except.error (Crash.remoteCallError,
        { acc with
          k := acc.k + 1,
          calls := acc.calls ++ [get_bpmn_prompt p sop] }) := by
  unfold stage2Step call_gpt
  rw [h]

theorem stage2Step_skip (oracle : Oracle) (sop dir : List Char) (acc : LoopAcc)
    (p raw : List Char) (h : oracle acc.k = Except.ok raw)
    (hparse : parse_markdown_table (pyStrip raw) = []) :
    stage2Step oracle sop dir acc p =
      Except.ok { acc with
                  k := acc.k + 1,
                  calls := acc.calls ++ [get_bpmn_prompt p sop],
                  failures := acc.failures ++ [p] } := by
  unfold stage2Step call_gpt
  rw [h]
  simp [hparse]

theorem stage2Step_success (oracle : Oracle) (sop dir : List Char) (acc : LoopAcc)
    (p raw : List Char) (rows : List Record) (content : List (List (List Char)))
    (h : oracle acc.k = Except.ok raw)
    (hparse : parse_markdown_table (pyStrip raw) = rows)
    (hne : rows ≠ [])
    (hw : write_csv rows processHeaders = Except.ok content) :
    stage2Step oracle sop dir acc p =
      Except.ok { acc with
                  k := acc.k + 1,
                  calls := acc.calls ++ [get_bpmn_prompt p sop],
                  artifacts := acc.artifacts ++
                    [⟨osPathJoin dir (sanitize p ++ (("_bpmn.csv").toList)),
                      processHeaders, content⟩],
                  tables := dictInsert p (pyStrip raw) acc.tables } := by
  unfold stage2Step call_gpt
  rw [h]
  simp [hparse, isEmpty_false_of_ne rows hne, hw]

theorem stage2Step_writeError (oracle : Oracle) (sop dir : List Char) (acc : LoopAcc)
    (p raw : List Char) (rows : List Record)
    (h : oracle acc.k = Except.ok raw)
    (hparse : parse_markdown_table (pyStrip raw) = rows)
    (hne : rows ≠ [])
    (hw : write_csv rows processHeaders = Except.error ()) :
    stage2Step oracle sop dir acc p =
      Except.error (Crash.valueError,
        { acc with
          k := acc.k + 1,
          calls := acc.calls ++ [get_bpmn_prompt p sop] }) := by
  unfold stage2Step call_gpt
  rw [h]
  simp [hparse, isEmpty_false_of_ne rows hne, hw]

theorem write_csv_error (rows : List Record) (headers : List (List Char)) (r : Record)
    (kv : List Char × List Char) (hr : r ∈ rows) (hkv : kv ∈ r) (hk : kv.1 ∉ headers) :
    write_csv rows headers = Except.error () := by
  have hrowbad : csvRow headers r = Except.error () := by
    unfold csvRow
    rw [if_neg]
    intro hall
    have := List.all_eq_true.mp hall kv hkv
    simp at this
    exact hk this
  induction rows with
  | nil => cases hr
  | cons a rest ih =>
    rcases List.mem_cons.mp hr with h | h
    · subst h
      unfold write_csv
      rw [hrowbad]
    · unfold write_csv
      cases hca : csvRow headers a with
      | error e => cases e; rfl
      | ok cells =>
        rw [ih h]

/-! ### C8: empty document aborts before any call -/

/-- C8: when the extracted document text is empty or whitespace only, the
run ends at once with the no-text outcome, no model call is made, and no
artifact is written. -/
theorem emptyDocument_aborts (oracle : Oracle) (sop_text output_dir : List Char)
    (h : pyStrip sop_text = []) :
    mainModel oracle sop_text output_dir = ⟨[], [], [], Outcome.noText⟩ := by
  unfold mainModel
  rw [if_pos (by simp [h])]

/-- Witness for C8: a whitespace-only document yields the no-text result
with no calls and no artifacts, whatever the oracle would have answered. -/
theorem emptyDocument_aborts_witness :
    mainModel (fun _ => Except.ok (("ignored").toList)) ((" \n\t ").toList) (("out").toList) =
      ⟨[], [], [], Outcome.noText⟩ :=
  emptyDocument_aborts _ _ _ (by decide)

/-! ### C9: an extra column aborts the run at persistence time -/

/-- C9: a record with a key outside the header makes `write_csv` fail with
`ValueError` instead of writing the row; hence a stage-2 reply parsing to
a non-empty table whose header holds a column outside the seven fixed
names crashes the whole run at persistence time, with no per-participant
failure logged and no artifact recorded. -/
theorem extraColumn_aborts (oracle : Oracle) (sop dir r0 p m k l0 l1 : List Char)
    (body : List (List Char))
    (hsop : pyStrip sop ≠ [])
    (h0 : oracle 0 = Except.ok r0)
    (hpar : parse_numbered_list (pyStrip r0) = [p])
    (h1 : oracle 1 = Except.ok m)
    (hq : qualifyingLines (pyStrip m) = l0 :: l1 :: body)
    (hne : parse_markdown_table (pyStrip m) ≠ [])
    (hk : k ∈ rowCells l0) (hk7 : k ∉ processHeaders) :
    (∀ (rows : List Record) (headers : List (List Char)) (r : Record)
        (kv : List Char × List Char), r ∈ rows → kv ∈ r → kv.1 ∉ headers →
        write_csv rows headers = Except.error ()) ∧
    mainModel oracle sop dir =
      ⟨[get_participants_prompt sop, get_bpmn_prompt p sop], [], [],
        Outcome.crashed Crash.valueError⟩ := by
  obtain ⟨r, rest, hparse⟩ : ∃ r rest, parse_markdown_table (pyStrip m) = r :: rest := by
    cases hp : parse_markdown_table (pyStrip m) with
    | nil => exact absurd hp hne
    | cons a b => exact ⟨a, b, rfl⟩
  obtain ⟨row, hrow, hlen, hreq⟩ :=
    mem_parse_markdown_table (pyStrip m) l0 l1 body r hq (by rw [hparse]; simp)
  have hkkeys : k ∈ dictKeys r := by
    rw [hreq]
    exact mem_dictKeys_dictZip k (rowCells l0) (rowCells row) hk (le_of_eq hlen.symm)
  unfold dictKeys at hkkeys
  obtain ⟨kv, hkv, hfst⟩ := List.mem_map.mp hkkeys
  have hwerr : write_csv (parse_markdown_table (pyStrip m)) processHeaders =
      Except.error () := by
    apply write_csv_error _ _ r kv
    · rw [hparse]; simp
    · exact hkv
    · rw [hfst]; exact hk7
  refine ⟨write_csv_error, ?_⟩
  have hstep := stage2Step_writeError oracle sop dir
    ⟨1, [get_participants_prompt sop], [], [], []⟩ p m
    (parse_markdown_table (pyStrip m)) h1 rfl hne hwerr
  unfold mainModel call_gpt
  rw [if_neg (by simp [List.isEmpty_iff, hsop]), h0]
  simp only [hpar]
  rw [if_neg (by simp)]
  simp only [stage2]
  rw [hstep]
  rfl

set_option maxRecDepth 1000000 in
/-- Witness for C9: one participant whose reply table carries the extra
column makes the run crash with `ValueError` and no artifact. -/
theorem extraColumn_aborts_witness :
    mainModel oracleExtraCol (("doc").toList) (("out").toList) =
      ⟨[get_participants_prompt (("doc").toList),
        get_bpmn_prompt (("A").toList) (("doc").toList)], [], [],
        Outcome.crashed Crash.valueError⟩ :=
  (extraColumn_aborts oracleExtraCol (("doc").toList) (("out").toList)
    (("1. A").toList) (("A").toList) tblBadCol (("Extra").toList)
    (("| Object Type | Object Name | Predecessor | Successor | Input Data | Output Data | Additional Information | Extra |").toList)
    (("| --- | --- | --- | --- | --- | --- | --- | --- |").toList)
    [(("| Task | T1 | a | b | c | d | e | x |").toList)]
    (by decide) (by rfl) (by decide) (by rfl) (by decide) (by decide)
    (by decide) (by decide)).2

theorem stage2_cons (oracle : Oracle) (sop dir : List Char) (acc : LoopAcc)
    (p : List Char) (ps : List (List Char)) (acc₂ : LoopAcc)
    (h : stage2Step oracle sop dir acc p = Except.ok acc₂) :
    stage2 oracle sop dir acc (p :: ps) = stage2 oracle sop dir acc₂ ps := by
  simp only [stage2, h]

theorem stage2_cons_err (oracle : Oracle) (sop dir : List Char) (acc : LoopAcc)
    (p : List Char) (ps : List (List Char)) (e : Crash × LoopAcc)
    (h : stage2Step oracle sop dir acc p = Except.error e) :
    stage2 oracle sop dir acc (p :: ps) = Except.error e := by
  simp only [stage2, h]

/-! ### C10: duplicate participant labels -/

/-- C10: when the same label occurs twice and both stage-2 parses succeed,
the loop processes both occurrences; the second reply overwrites the
first in the retained map, the artifact path of both writes is the same
so the second write wins on the file system, the stage-3 prompt holds
exactly one table for the label, namely the second reply, and no failure
is logged. -/
theorem duplicate_labels (oracle : Oracle) (sop dir r0 p m1 m2 mfr : List Char)
    (rows1 rows2 : List Record) (c1 c2 : List (List (List Char)))
    (hsop : pyStrip sop ≠ [])
    (h0 : oracle 0 = Except.ok r0)
    (hpar : parse_numbered_list (pyStrip r0) = [p, p])
    (h1 : oracle 1 = Except.ok m1) (h2 : oracle 2 = Except.ok m2)
    (hp1 : parse_markdown_table (pyStrip m1) = rows1) (hne1 : rows1 ≠ [])
    (hw1 : write_csv rows1 processHeaders = Except.ok c1)
    (hp2 : parse_markdown_table (pyStrip m2) = rows2) (hne2 : rows2 ≠ [])
    (hw2 : write_csv rows2 processHeaders = Except.ok c2)
    (h3 : oracle 3 = Except.ok mfr)
    (hmf : parse_markdown_table (pyStrip mfr) = []) :
    mainModel oracle sop dir =
      ⟨[get_participants_prompt sop, get_bpmn_prompt p sop, get_bpmn_prompt p sop,
        get_message_flows_prompt [(p, pyStrip m2)]],
       [⟨osPathJoin dir (sanitize p ++ (("_bpmn.csv").toList)), processHeaders, c1⟩,
        ⟨osPathJoin dir (sanitize p ++ (("_bpmn.csv").toList)), processHeaders, c2⟩],
       [], Outcome.completed⟩ ∧
    lastWrite
        [⟨osPathJoin dir (sanitize p ++ (("_bpmn.csv").toList)), processHeaders, c1⟩,
         ⟨osPathJoin dir (sanitize p ++ (("_bpmn.csv").toList)), processHeaders, c2⟩]
        (osPathJoin dir (sanitize p ++ (("_bpmn.csv").toList))) =
      some ⟨osPathJoin dir (sanitize p ++ (("_bpmn.csv").toList)), processHeaders, c2⟩ := by
  constructor
  · have hstep1 : stage2Step oracle sop dir ⟨1, [get_participants_prompt sop], [], [], []⟩ p =
        Except.ok ⟨2, [get_participants_prompt sop, get_bpmn_prompt p sop],
          [⟨osPathJoin dir (sanitize p ++ (("_bpmn.csv").toList)), processHeaders, c1⟩],
          [], [(p, pyStrip m1)]⟩ := by
      rw [stage2Step_success oracle sop dir _ p m1 rows1 c1 h1 hp1 hne1 hw1]
      rfl
    have hstep2 : stage2Step oracle sop dir
        ⟨2, [get_participants_prompt sop, get_bpmn_prompt p sop],
          [⟨osPathJoin dir (sanitize p ++ (("_bpmn.csv").toList)), processHeaders, c1⟩],
          [], [(p, pyStrip m1)]⟩ p =
        Except.ok ⟨3, [get_participants_prompt sop, get_bpmn_prompt p sop,
            get_bpmn_prompt p sop],
          [⟨osPathJoin dir (sanitize p ++ (("_bpmn.csv").toList)), processHeaders, c1⟩,
           ⟨osPathJoin dir (sanitize p ++ (("_bpmn.csv").toList)), processHeaders, c2⟩],
          [], [(p, pyStrip m2)]⟩ := by
      rw [stage2Step_success oracle sop dir _ p m2 rows2 c2 h2 hp2 hne2 hw2]
      simp [dictInsert]
    have hrun : stage2 oracle sop dir ⟨1, [get_participants_prompt sop], [], [], []⟩ [p, p] =
        Except.ok ⟨3, [get_participants_prompt sop, get_bpmn_prompt p sop,
            get_bpmn_prompt p sop],
          [⟨osPathJoin dir (sanitize p ++ (("_bpmn.csv").toList)), processHeaders, c1⟩,
           ⟨osPathJoin dir (sanitize p ++ (("_bpmn.csv").toList)), processHeaders, c2⟩],
          [], [(p, pyStrip m2)]⟩ := by
      rw [stage2_cons _ _ _ _ _ _ _ hstep1, stage2_cons _ _ _ _ _ _ _ hstep2]
      rfl
    unfold mainModel call_gpt
    rw [if_neg (by simp [List.isEmpty_iff, hsop]), h0]
    simp only [hpar]
    rw [if_neg (by simp)]
    rw [hrun]
    dsimp only
    rw [h3]
    rw [if_neg (by simp)]
    dsimp only
    rw [hmf]
    rfl
  · simp [lastWrite]

set_option maxRecDepth 1000000 in
/-- Witness for C10: the label A twice with two different parsable tables;
the run completes with two writes to the same path, the second winning,
and the stage-3 prompt holds only the second table. -/
theorem duplicate_labels_witness :
    mainModel oracleDup (("doc").toList) (("out").toList) =
      ⟨[get_participants_prompt (("doc").toList),
        get_bpmn_prompt (("A").toList) (("doc").toList),
        get_bpmn_prompt (("A").toList) (("doc").toList),
        get_message_flows_prompt [((("A").toList), pyStrip tblGood2)]],
       [⟨osPathJoin (("out").toList) (sanitize (("A").toList) ++ (("_bpmn.csv").toList)),
         processHeaders,
         [[("Task").toList, ("T1").toList, ("a").toList, ("b").toList, ("c").toList,
           ("d").toList, ("e").toList]]⟩,
        ⟨osPathJoin (("out").toList) (sanitize (("A").toList) ++ (("_bpmn.csv").toList)),
         processHeaders,
         [[("Send Task").toList, ("T2").toList, ("f").toList, ("g").toList, ("h").toList,
           ("i").toList, ("j").toList]]⟩],
       [], Outcome.completed⟩ ∧
    lastWrite
        [⟨osPathJoin (("out").toList) (sanitize (("A").toList) ++ (("_bpmn.csv").toList)),
          processHeaders,
          [[("Task").toList, ("T1").toList, ("a").toList, ("b").toList, ("c").toList,
            ("d").toList, ("e").toList]]⟩,
         ⟨osPathJoin (("out").toList) (sanitize (("A").toList) ++ (("_bpmn.csv").toList)),
          processHeaders,
          [[("Send Task").toList, ("T2").toList, ("f").toList, ("g").toList, ("h").toList,
            ("i").toList, ("j").toList]]⟩]
        (osPathJoin (("out").toList) (sanitize (("A").toList) ++ (("_bpmn.csv").toList))) =
      some ⟨osPathJoin (("out").toList) (sanitize (("A").toList) ++ (("_bpmn.csv").toList)),
        processHeaders,
        [[("Send Task").toList, ("T2").toList, ("f").toList, ("g").toList, ("h").toList,
          ("i").toList, ("j").toList]]⟩ :=
  duplicate_labels oracleDup (("doc").toList) (("out").toList) (("1. A\n2. A").toList)
    (("A").toList) tblGood tblGood2 (("junk").toList)
    (parse_markdown_table (pyStrip tblGood)) (parse_markdown_table (pyStrip tblGood2))
    [[("Task").toList, ("T1").toList, ("a").toList, ("b").toList, ("c").toList,
      ("d").toList, ("e").toList]]
    [[("Send Task").toList, ("T2").toList, ("f").toList, ("g").toList, ("h").toList,
      ("i").toList, ("j").toList]]
    (by decide) (by rfl) (by decide) (by rfl) (by rfl) (by rfl) (by decide) (by rfl)
    (by rfl) (by decide) (by rfl) (by rfl) (by decide)

/-! ### C1: stage-2 failure handling -/

set_option maxRecDepth 1000000 in
/-- C1 counterexample: three participants, the second model call raises a
remote-call failure; the run does not continue past that participant, the
outcome is a crash, and only one artifact exists instead of two. -/
theorem stage2_failure_cx :
    (mainModel oracleRemoteFail (("doc").toList) (("out").toList)).outcome =
      Outcome.crashed Crash.remoteCallError ∧
    (mainModel oracleRemoteFail (("doc").toList) (("out").toList)).artifacts.length = 1 ∧
    ¬ ((mainModel oracleRemoteFail (("doc").toList) (("out").toList)).artifacts.length = 2) := by
  decide

/-- C1 (amended): within a three-participant stage 2, a reply that parses
to zero records is recoverable whichever position it occurs in: the loop
continues past the failing participant, exactly the two other artifacts
are written, the failing participant is logged as a failure, and the
stage-3 prompt is built over the two retained tables only. -/
theorem stage2_parse_failure_recoverable :
    (∀ (oracle : Oracle) (sop dir r0 x y z m1 m2 m3 mfr : List Char)
       (rows1 rows3 : List Record) (c1 c3 : List (List (List Char))),
      pyStrip sop ≠ [] →
      oracle 0 = Except.ok r0 →
      parse_numbered_list (pyStrip r0) = [x, y, z] →
      x ≠ z →
      oracle 1 = Except.ok m1 →
      parse_markdown_table (pyStrip m1) = rows1 → rows1 ≠ [] →
      write_csv rows1 processHeaders = Except.ok c1 →
      oracle 2 = Except.ok m2 →
      parse_markdown_table (pyStrip m2) = [] →
      oracle 3 = Except.ok m3 →
      parse_markdown_table (pyStrip m3) = rows3 → rows3 ≠ [] →
      write_csv rows3 processHeaders = Except.ok c3 →
      oracle 4 = Except.ok mfr →
      parse_markdown_table (pyStrip mfr) = [] →
      mainModel oracle sop dir =
        ⟨[get_participants_prompt sop, get_bpmn_prompt x sop, get_bpmn_prompt y sop,
          get_bpmn_prompt z sop,
          get_message_flows_prompt [(x, pyStrip m1), (z, pyStrip m3)]],
         [⟨osPathJoin dir (sanitize x ++ (("_bpmn.csv").toList)), processHeaders, c1⟩,
          ⟨osPathJoin dir (sanitize z ++ (("_bpmn.csv").toList)), processHeaders, c3⟩],
         [y], Outcome.completed⟩) ∧
    (∀ (oracle : Oracle) (sop dir r0 x y z m1 m2 m3 mfr : List Char)
       (rows2 rows3 : List Record) (c2 c3 : List (List (List Char))),
      pyStrip sop ≠ [] →
      oracle 0 = Except.ok r0 →
      parse_numbered_list (pyStrip r0) = [x, y, z] →
      y ≠ z →
      oracle 1 = Except.ok m1 →
      parse_markdown_table (pyStrip m1) = [] →
      oracle 2 = Except.ok m2 →
      parse_markdown_table (pyStrip m2) = rows2 → rows2 ≠ [] →
      write_csv rows2 processHeaders = Except.ok c2 →
      oracle 3 = Except.ok m3 →
      parse_markdown_table (pyStrip m3) = rows3 → rows3 ≠ [] →
      write_csv rows3 processHeaders = Except.ok c3 →
      oracle 4 = Except.ok mfr →
      parse_markdown_table (pyStrip mfr) = [] →
      mainModel oracle sop dir =
        ⟨[get_participants_prompt sop, get_bpmn_prompt x sop, get_bpmn_prompt y sop,
          get_bpmn_prompt z sop,
          get_message_flows_prompt [(y, pyStrip m2), (z, pyStrip m3)]],
         [⟨osPathJoin dir (sanitize y ++ (("_bpmn.csv").toList)), processHeaders, c2⟩,
          ⟨osPathJoin dir (sanitize z ++ (("_bpmn.csv").toList)), processHeaders, c3⟩],
         [x], Outcome.completed⟩) ∧
    (∀ (oracle : Oracle) (sop dir r0 x y z m1 m2 m3 mfr : List Char)
       (rows1 rows2 : List Record) (c1 c2 : List (List (List Char))),
      pyStrip sop ≠ [] →
      oracle 0 = Except.ok r0 →
      parse_numbered_list (pyStrip r0) = [x, y, z] →
      x ≠ y →
      oracle 1 = Except.ok m1 →
      parse_markdown_table (pyStrip m1) = rows1 → rows1 ≠ [] →
      write_csv rows1 processHeaders = Except.ok c1 →
      oracle 2 = Except.ok m2 →
      parse_markdown_table (pyStrip m2) = rows2 → rows2 ≠ [] →
      write_csv rows2 processHeaders = Except.ok c2 →
      oracle 3 = Except.ok m3 →
      parse_markdown_table (pyStrip m3) = [] →
      oracle 4 = Except.ok mfr →
      parse_markdown_table (pyStrip mfr) = [] →
      mainModel oracle sop dir =
        ⟨[get_participants_prompt sop, get_bpmn_prompt x sop, get_bpmn_prompt y sop,
          get_bpmn_prompt z sop,
          get_message_flows_prompt [(x, pyStrip m1), (y, pyStrip m2)]],
         [⟨osPathJoin dir (sanitize x ++ (("_bpmn.csv").toList)), processHeaders, c1⟩,
          ⟨osPathJoin dir (sanitize y ++ (("_bpmn.csv").toList)), processHeaders, c2⟩],
         [z], Outcome.completed⟩) := by
  refine ⟨?_, ?_, ?_⟩
  · intro oracle sop dir r0 x y z m1 m2 m3 mfr rows1 rows3 c1 c3
      hsop h0 hpar hxz h1 hp1 hne1 hw1 h2 hp2 h3 hp3 hne3 hw3 h4 hmf
    have hstep1 : stage2Step oracle sop dir
        ⟨1, [get_participants_prompt sop], [], [], []⟩ x =
        Except.ok ⟨2, [get_participants_prompt sop, get_bpmn_prompt x sop],
          [⟨osPathJoin dir (sanitize x ++ (("_bpmn.csv").toList)), processHeaders, c1⟩],
          [], [(x, pyStrip m1)]⟩ := by
      rw [stage2Step_success oracle sop dir _ x m1 rows1 c1 h1 hp1 hne1 hw1]
      rfl
    have hstep2 : stage2Step oracle sop dir
        ⟨2, [get_participants_prompt sop, get_bpmn_prompt x sop],
          [⟨osPathJoin dir (sanitize x ++ (("_bpmn.csv").toList)), processHeaders, c1⟩],
          [], [(x, pyStrip m1)]⟩ y =
        Except.ok ⟨3, [get_participants_prompt sop, get_bpmn_prompt x sop,
            get_bpmn_prompt y sop],
          [⟨osPathJoin dir (sanitize x ++ (("_bpmn.csv").toList)), processHeaders, c1⟩],
          [y], [(x, pyStrip m1)]⟩ := by
      rw [stage2Step_skip oracle sop dir _ y m2 h2 hp2]
      rfl
    have hstep3 : stage2Step oracle sop dir
        ⟨3, [get_participants_prompt sop, get_bpmn_prompt x sop, get_bpmn_prompt y sop],
          [⟨osPathJoin dir (sanitize x ++ (("_bpmn.csv").toList)), processHeaders, c1⟩],
          [y], [(x, pyStrip m1)]⟩ z =
        Except.ok ⟨4, [get_participants_prompt sop, get_bpmn_prompt x sop,
            get_bpmn_prompt y sop, get_bpmn_prompt z sop],
          [⟨osPathJoin dir (sanitize x ++ (("_bpmn.csv").toList)), processHeaders, c1⟩,
           ⟨osPathJoin dir (sanitize z ++ (("_bpmn.csv").toList)), processHeaders, c3⟩],
          [y], [(x, pyStrip m1), (z, pyStrip m3)]⟩ := by
      rw [stage2Step_success oracle sop dir _ z m3 rows3 c3 h3 hp3 hne3 hw3]
      simp [dictInsert, hxz]
    have hrun : stage2 oracle sop dir
        ⟨1, [get_participants_prompt sop], [], [], []⟩ [x, y, z] =
        Except.ok ⟨4, [get_participants_prompt sop, get_bpmn_prompt x sop,
            get_bpmn_prompt y sop, get_bpmn_prompt z sop],
          [⟨osPathJoin dir (sanitize x ++ (("_bpmn.csv").toList)), processHeaders, c1⟩,
           ⟨osPathJoin dir (sanitize z ++ (("_bpmn.csv").toList)), processHeaders, c3⟩],
          [y], [(x, pyStrip m1), (z, pyStrip m3)]⟩ := by
      rw [stage2_cons _ _ _ _ _ _ _ hstep1, stage2_cons _ _ _ _ _ _ _ hstep2,
          stage2_cons _ _ _ _ _ _ _ hstep3]
      rfl
    unfold mainModel call_gpt
    rw [if_neg (by simp [List.isEmpty_iff, hsop]), h0]
    simp only [hpar]
    rw [if_neg (by simp)]
    rw [hrun]
    dsimp only
    rw [h4]
    rw [if_neg (by simp)]
    dsimp only
    rw [hmf]
    rfl
  · intro oracle sop dir r0 x y z m1 m2 m3 mfr rows2 rows3 c2 c3
      hsop h0 hpar hyz h1 hp1 h2 hp2 hne2 hw2 h3 hp3 hne3 hw3 h4 hmf
    have hstep1 : stage2Step oracle sop dir
        ⟨1, [get_participants_prompt sop], [], [], []⟩ x =
        Except.ok ⟨2, [get_participants_prompt sop, get_bpmn_prompt x sop],
          [], [x], []⟩ := by
      rw [stage2Step_skip oracle sop dir _ x m1 h1 hp1]
      rfl
    have hstep2 : stage2Step oracle sop dir
        ⟨2, [get_participants_prompt sop, get_bpmn_prompt x sop], [], [x], []⟩ y =
        Except.ok ⟨3, [get_participants_prompt sop, get_bpmn_prompt x sop,
            get_bpmn_prompt y sop],
          [⟨osPathJoin dir (sanitize y ++ (("_bpmn.csv").toList)), processHeaders, c2⟩],
          [x], [(y, pyStrip m2)]⟩ := by
      rw [stage2Step_success oracle sop dir _ y m2 rows2 c2 h2 hp2 hne2 hw2]
      rfl
    have hstep3 : stage2Step oracle sop dir
        ⟨3, [get_participants_prompt sop, get_bpmn_prompt x sop, get_bpmn_prompt y sop],
          [⟨osPathJoin dir (sanitize y ++ (("_bpmn.csv").toList)), processHeaders, c2⟩],
          [x], [(y, pyStrip m2)]⟩ z =
        Except.ok ⟨4, [get_participants_prompt sop, get_bpmn_prompt x sop,
            get_bpmn_prompt y sop, get_bpmn_prompt z sop],
          [⟨osPathJoin dir (sanitize y ++ (("_bpmn.csv").toList)), processHeaders, c2⟩,
           ⟨osPathJoin dir (sanitize z ++ (("_bpmn.csv").toList)), processHeaders, c3⟩],
          [x], [(y, pyStrip m2), (z, pyStrip m3)]⟩ := by
      rw [stage2Step_success oracle sop dir _ z m3 rows3 c3 h3 hp3 hne3 hw3]
      simp [dictInsert, hyz]
    have hrun : stage2 oracle sop dir
        ⟨1, [get_participants_prompt sop], [], [], []⟩ [x, y, z] =
        Except.ok ⟨4, [get_participants_prompt sop, get_bpmn_prompt x sop,
            get_bpmn_prompt y sop, get_bpmn_prompt z sop],
          [⟨osPathJoin dir (sanitize y ++ (("_bpmn.csv").toList)), processHeaders, c2⟩,
           ⟨osPathJoin dir (sanitize z ++ (("_bpmn.csv").toList)), processHeaders, c3⟩],
          [x], [(y, pyStrip m2), (z, pyStrip m3)]⟩ := by
      rw [stage2_cons _ _ _ _ _ _ _ hstep1, stage2_cons _ _ _ _ _ _ _ hstep2,
          stage2_cons _ _ _ _ _ _ _ hstep3]
      rfl
    unfold mainModel call_gpt
    rw [if_neg (by simp [List.isEmpty_iff, hsop]), h0]
    simp only [hpar]
    rw [if_neg (by simp)]
    rw [hrun]
    dsimp only
    rw [h4]
    rw [if_neg (by simp)]
    dsimp only
    rw [hmf]
    rfl
  · intro oracle sop dir r0 x y z m1 m2 m3 mfr rows1 rows2 c1 c2
      hsop h0 hpar hxy h1 hp1 hne1 hw1 h2 hp2 hne2 hw2 h3 hp3 h4 hmf
    have hstep1 : stage2Step oracle sop dir
        ⟨1, [get_participants_prompt sop], [], [], []⟩ x =
        Except.ok ⟨2, [get_participants_prompt sop, get_bpmn_prompt x sop],
          [⟨osPathJoin dir (sanitize x ++ (("_bpmn.csv").toList)), processHeaders, c1⟩],
          [], [(x, pyStrip m1)]⟩ := by
      rw [stage2Step_success oracle sop dir _ x m1 rows1 c1 h1 hp1 hne1 hw1]
      rfl
    have hstep2 : stage2Step oracle sop dir
        ⟨2, [get_participants_prompt sop, get_bpmn_prompt x sop],
          [⟨osPathJoin dir (sanitize x ++ (("_bpmn.csv").toList)), processHeaders, c1⟩],
          [], [(x, pyStrip m1)]⟩ y =
        Except.ok ⟨3, [get_participants_prompt sop, get_bpmn_prompt x sop,
            get_bpmn_prompt y sop],
          [⟨osPathJoin dir (sanitize x ++ (("_bpmn.csv").toList)), processHeaders, c1⟩,
           ⟨osPathJoin dir (sanitize y ++ (("_bpmn.csv").toList)), processHeaders, c2⟩],
          [], [(x, pyStrip m1), (y, pyStrip m2)]⟩ := by
      rw [stage2Step_success oracle sop dir _ y m2 rows2 c2 h2 hp2 hne2 hw2]
      simp [dictInsert, hxy]
    have hstep3 : stage2Step oracle sop dir
        ⟨3, [get_participants_prompt sop, get_bpmn_prompt x sop, get_bpmn_prompt y sop],
          [⟨osPathJoin dir (sanitize x ++ (("_bpmn.csv").toList)), processHeaders, c1⟩,
           ⟨osPathJoin dir (sanitize y ++ (("_bpmn.csv").toList)), processHeaders, c2⟩],
          [], [(x, pyStrip m1), (y, pyStrip m2)]⟩ z =
        Except.ok ⟨4, [get_participants_prompt sop, get_bpmn_prompt x sop,
            get_bpmn_prompt y sop, get_bpmn_prompt z sop],
          [⟨osPathJoin dir (sanitize x ++ (("_bpmn.csv").toList)), processHeaders, c1⟩,
           ⟨osPathJoin dir (sanitize y ++ (("_bpmn.csv").toList)), processHeaders, c2⟩],
          [z], [(x, pyStrip m1), (y, pyStrip m2)]⟩ := by
      rw [stage2Step_skip oracle sop dir _ z m3 h3 hp3]
      rfl
    have hrun : stage2 oracle sop dir
        ⟨1, [get_participants_prompt sop], [], [], []⟩ [x, y, z] =
        Except.ok ⟨4, [get_participants_prompt sop, get_bpmn_prompt x sop,
            get_bpmn_prompt y sop, get_bpmn_prompt z sop],
          [⟨osPathJoin dir (sanitize x ++ (("_bpmn.csv").toList)), processHeaders, c1⟩,
           ⟨osPathJoin dir (sanitize y ++ (("_bpmn.csv").toList)), processHeaders, c2⟩],
          [z], [(x, pyStrip m1), (y, pyStrip m2)]⟩ := by
      rw [stage2_cons _ _ _ _ _ _ _ hstep1, stage2_cons _ _ _ _ _ _ _ hstep2,
          stage2_cons _ _ _ _ _ _ _ hstep3]
      rfl
    unfold mainModel call_gpt
    rw [if_neg (by simp [List.isEmpty_iff, hsop]), h0]
    simp only [hpar]
    rw [if_neg (by simp)]
    rw [hrun]
    dsimp only
    rw [h4]
    rw [if_neg (by simp)]
    dsimp only
    rw [hmf]
    rfl

set_option maxRecDepth 1000000 in
/-- Witness for C1 (amended): participants A, B, C where the reply for B
is unparsable; the run completes with the two artifacts for A and C, B in
the failure log, and the stage-3 prompt over the tables of A and C only. -/
theorem stage2_parse_failure_recoverable_witness :
    mainModel oracleParseFail (("doc").toList) (("out").toList) =
      ⟨[get_participants_prompt (("doc").toList),
        get_bpmn_prompt (("A").toList) (("doc").toList),
        get_bpmn_prompt (("B").toList) (("doc").toList),
        get_bpmn_prompt (("C").toList) (("doc").toList),
        get_message_flows_prompt
          [((("A").toList), pyStrip tblGood), ((("C").toList), pyStrip tblGood2)]],
       [⟨osPathJoin (("out").toList) (sanitize (("A").toList) ++ (("_bpmn.csv").toList)),
         processHeaders,
         [[("Task").toList, ("T1").toList, ("a").toList, ("b").toList, ("c").toList,
           ("d").toList, ("e").toList]]⟩,
        ⟨osPathJoin (("out").toList) (sanitize (("C").toList) ++ (("_bpmn.csv").toList)),
         processHeaders,
         [[("Send Task").toList, ("T2").toList, ("f").toList, ("g").toList, ("h").toList,
           ("i").toList, ("j").toList]]⟩],
       [("B").toList], Outcome.completed⟩ :=
  stage2_parse_failure_recoverable.1 oracleParseFail (("doc").toList) (("out").toList)
    (("1. A\n2. B\n3. C").toList) (("A").toList) (("B").toList) (("C").toList)
    tblGood (("junk").toList) tblGood2 (("junk").toList)
    (parse_markdown_table (pyStrip tblGood)) (parse_markdown_table (pyStrip tblGood2))
    [[("Task").toList, ("T1").toList, ("a").toList, ("b").toList, ("c").toList,
      ("d").toList, ("e").toList]]
    [[("Send Task").toList, ("T2").toList, ("f").toList, ("g").toList, ("h").toList,
      ("i").toList, ("j").toList]]
    (by decide) (by rfl) (by decide) (by decide) (by rfl) (by rfl) (by decide) (by rfl)
    (by rfl) (by decide) (by rfl) (by rfl) (by decide) (by rfl) (by rfl) (by decide)
